import Mathlib

/-!
Zeal docset access layer: a shallow embedding of `src/registry/docset.cpp`
(class `Zeal::Docset`).

* `QString` is modelled by `String`, `QMap` by an association list kept in ascending key
  order, `QHash` (only ever read) by an association list.
* What the program asks of Qt and of the file system is passed in explicitly:
  `QtLib` carries the two library functions whose result depends on Unicode tables
  or on the platform, `Bundle` is what the constructor finds on disk, and
  `QSqlDatabase` is what the opened database file answers to a piece of SQL text.
* The object state is the record `Docset`; every member function is a function on
  that record.  The field `trace` is a ghost field: it lists, in order, the directory
  checks and database operations the object has performed.
* `qWarning` diagnostics go to the process log and are not part of the state.
-/

/-! ## Symbol kinds and the alias table -/

/-- Modelled from the spec: the `SymbolType` enumeration of `docset.h`, which is not among the
sources. The kinds are those named in section 3 of the spec, in that order, together with the
sentinel; they are exactly the kinds the alias table of `strToSymbolType` mentions. -/
inductive SymbolType where
  | Invalid
  | Attribute
  | Class
  | Command
  | Constant
  | Constructor
  | Conversion
  | Delegate
  | Directive
  | Enumeration
  | Event
  | Exception
  | Field
  | Filter
  | Function
  | Guide
  | Interface
  | Macro
  | Method
  | Module
  | Namespace
  | Object
  | Operator
  | Option
  | Package
  | Property
  | Setting
  | Specialization
  | Structure
  | Tag
  | Trait
  | Type_
  | Variable
  deriving DecidableEq

/-- Position of a kind in the enumeration; `QMap` orders its keys by it. -/
def SymbolType.toNat : SymbolType → Nat
  | .Invalid => 0
  | .Attribute => 1
  | .Class => 2
  | .Command => 3
  | .Constant => 4
  | .Constructor => 5
  | .Conversion => 6
  | .Delegate => 7
  | .Directive => 8
  | .Enumeration => 9
  | .Event => 10
  | .Exception => 11
  | .Field => 12
  | .Filter => 13
  | .Function => 14
  | .Guide => 15
  | .Interface => 16
  | .Macro => 17
  | .Method => 18
  | .Module => 19
  | .Namespace => 20
  | .Object => 21
  | .Operator => 22
  | .Option => 23
  | .Package => 24
  | .Property => 25
  | .Setting => 26
  | .Specialization => 27
  | .Structure => 28
  | .Tag => 29
  | .Trait => 30
  | .Type_ => 31
  | .Variable => 32

/-- Inverse of `SymbolType.toNat` (numbers past the last kind go to the sentinel). -/
def SymbolType.fromNat : Nat → SymbolType
  | 1 => .Attribute
  | 2 => .Class
  | 3 => .Command
  | 4 => .Constant
  | 5 => .Constructor
  | 6 => .Conversion
  | 7 => .Delegate
  | 8 => .Directive
  | 9 => .Enumeration
  | 10 => .Event
  | 11 => .Exception
  | 12 => .Field
  | 13 => .Filter
  | 14 => .Function
  | 15 => .Guide
  | 16 => .Interface
  | 17 => .Macro
  | 18 => .Method
  | 19 => .Module
  | 20 => .Namespace
  | 21 => .Object
  | 22 => .Operator
  | 23 => .Option
  | 24 => .Package
  | 25 => .Property
  | 26 => .Setting
  | 27 => .Specialization
  | 28 => .Structure
  | 29 => .Tag
  | 30 => .Trait
  | 31 => .Type_
  | 32 => .Variable
  | _ => .Invalid

instance SymbolType.instLinearOrder : LinearOrder SymbolType :=
  LinearOrder.lift' SymbolType.toNat
    (Function.LeftInverse.injective
      (show Function.LeftInverse SymbolType.fromNat SymbolType.toNat from
        fun a => by cases a <;> rfl))

/-- Library functions of Qt that `docset.cpp` calls and whose result depends on Unicode
case tables or on the platform.  They are parameters of the model.

* `toLower s` is `s.toLower()`.
* `absoluteFilePath dir file` is `QDir(dir).absoluteFilePath(file)`. -/
structure QtLib where
  toLower : String → String
  absoluteFilePath : String → String → String

/-- An instance of `QtLib` for evaluating examples: lower-casing of the letters `A`-`Z` and
joining with a slash, which is what the two Qt functions return on ASCII text and on a relative
file name under an absolute directory. -/
def asciiQt : QtLib where
  toLower := fun s => String.mk (s.data.map Char.toLower)
  absoluteFilePath := fun dir file => dir ++ "/" ++ file

/-- The static table `typeStrings` of `strToSymbolType`, in source order. -/
def typeStrings : List (String × SymbolType) :=
  [("attribute", .Attribute),
   ("cl", .Class),
   ("class", .Class),
   ("command", .Command),
   ("clconst", .Constant),
   ("constant", .Constant),
   ("constructor", .Constructor),
   ("conversion", .Conversion),
   ("delegate", .Delegate),
   ("directive", .Directive),
   ("enum", .Enumeration),
   ("enumeration", .Enumeration),
   ("event", .Event),
   ("exception", .Exception),
   ("field", .Field),
   ("filter", .Filter),
   ("func", .Function),
   ("function", .Function),
   ("guide", .Guide),
   ("interface", .Interface),
   ("macro", .Macro),
   ("clm", .Method),
   ("method", .Method),
   ("module", .Module),
   ("namespace", .Namespace),
   ("object", .Object),
   ("operator", .Operator),
   ("option", .Option),
   ("package", .Package),
   ("property", .Property),
   ("setting", .Setting),
   ("specialization", .Specialization),
   ("struct", .Structure),
   ("structure", .Structure),
   ("tag", .Tag),
   ("trait", .Trait),
   ("tdef", .Type_),
   ("type", .Type_),
   ("variable", .Variable)]

/-- The call `QHash::value(key, defaultValue)` on a hash built from a list of pairs with
distinct keys. -/
def QHash.value {V : Type} (h : List (String × V)) (key : String) (defaultValue : V) : V :=
  (h.lookup key).getD defaultValue

/-- Member function `Docset::strToSymbolType`: look the lower-cased string up in `typeStrings`,
with the sentinel as default. -/
def strToSymbolType (qt : QtLib) (str : String) : SymbolType :=
  QHash.value typeStrings (qt.toLower str) SymbolType.Invalid

/-! ## Qt containers and strings -/

/-- The container `QMap<K, V>`: the entries in iteration order, which is ascending key order. -/
abbrev QMap (K V : Type) := List (K × V)

/-- Member function `QMap::contains(key)`. -/
def QMap.contains {K V : Type} [DecidableEq K] (m : QMap K V) (key : K) : Bool :=
  m.any (fun e => decide (e.1 = key))

/-- Member function `QMap::value(key)`, with the default-constructed value passed as
`defaultValue`: the value of the first entry with that key. -/
def QMap.value {K V : Type} [DecidableEq K] (m : QMap K V) (key : K) (defaultValue : V) : V :=
  match m.find? (fun e => decide (e.1 = key)) with
  | some e => e.2
  | none => defaultValue

/-- Member function `QMap::insert(key, value)`: the first entry whose key is not less than `key`
has its value replaced when its key equals `key`; otherwise a new entry is put in front of it.
-/
def QMap.insert {K V : Type} [LinearOrder K] (key : K) (value : V) : QMap K V → QMap K V
  | [] => [(key, value)]
  | e :: m =>
    if e.1 < key then e :: QMap.insert key value m
    else if key < e.1 then (key, value) :: e :: m
    else (key, value) :: m

/-- Member function `QMap::insertMulti(key, value)`: a new entry is put in front of the first
entry whose key is not less than `key`; nothing is replaced. -/
def QMap.insertMulti {K V : Type} [LinearOrder K] (key : K) (value : V) :
    QMap K V → QMap K V
  | [] => [(key, value)]
  | e :: m =>
    if e.1 < key then e :: QMap.insertMulti key value m
    else (key, value) :: e :: m

/-- The map after the non-const `operator[](key)`: an absent key is inserted with the
default-constructed value. The reference it returns is `QMap.value` of this map. -/
def QMap.subscript {K V : Type} [DecidableEq K] [LinearOrder K] (m : QMap K V) (key : K)
    (defaultValue : V) : QMap K V :=
  if QMap.contains m key then m else QMap.insert key defaultValue m

/-- The keys of a map, in iteration order. -/
def QMap.keys {K V : Type} (m : QMap K V) : List K := m.map Prod.fst

/-- The values of a map, in iteration order. -/
def QMap.values {K V : Type} (m : QMap K V) : List V := m.map Prod.snd

/-- Worker of `QString.replace` on character lists; `fuel` bounds the number of steps. -/
def QString.replaceAux (before after : List Char) : Nat → List Char → List Char
  | 0, s => s
  | _ + 1, [] => []
  | fuel + 1, c :: cs =>
    if before.isPrefixOf (c :: cs) then
      after ++ QString.replaceAux before after fuel ((c :: cs).drop before.length)
    else c :: QString.replaceAux before after fuel cs

/-- Member function `QString::replace(before, after)` for a non-empty `before`: every occurrence
of `before`, found from left to right, is replaced by `after`. -/
def QString.replace (s before after : String) : String :=
  String.mk (QString.replaceAux before.data after.data s.data.length s.data)

/-- Member function `QString::replace(QLatin1String, QLatin1String)` with one-character
arguments. -/
def QString.replaceChar (s : String) (before after : Char) : String :=
  String.mk (s.data.map (fun c => if c = before then after else c))

/-- The UTF-16 code units that a `QString` stores for one character: the code point itself
in the basic plane, a high and a low surrogate above it. -/
def QString.utf16Char (c : Char) : List Nat :=
  if c.toNat < 0x10000 then [c.toNat]
  else [0xD800 + (c.toNat - 0x10000) / 0x400, 0xDC00 + (c.toNat - 0x10000) % 0x400]

/-- The sequence of UTF-16 code units that a `QString` holds for the text `s`. -/
def QString.utf16 (s : String) : List Nat := s.data.flatMap QString.utf16Char

/-- The order of `operator<` on `QString`, which is the key order of a `QMap<QString, T>`:
the lexicographic order of the UTF-16 code units.  It differs from the order of the code
points when a character above the basic plane meets one of `U+E000`..`U+FFFF`. -/
@[reducible] def QString.linearOrder : LinearOrder String :=
  LinearOrder.lift' QString.utf16 (by
    have hne : ∀ c : Char, ∃ x xs, QString.utf16Char c = x :: xs := by
      intro c
      unfold QString.utf16Char
      split_ifs
      · exact ⟨_, _, rfl⟩
      · exact ⟨_, _, rfl⟩
    have hvalid : ∀ c : Char,
        c.toNat < 0xd800 ∨ (0xdfff < c.toNat ∧ c.toNat < 0x110000) := fun c => c.valid
    have hchar : ∀ (c1 c2 : Char) (t1 t2 : List Nat),
        QString.utf16Char c1 ++ t1 = QString.utf16Char c2 ++ t2 → c1 = c2 ∧ t1 = t2 := by
      intro c1 c2 t1 t2 h
      have h1 := hvalid c1
      have h2 := hvalid c2
      have hn : c1.toNat = c2.toNat → c1 = c2 := by
        intro hn
        apply Char.ext
        apply UInt32.ext
        exact hn
      unfold QString.utf16Char at h
      split_ifs at h with ha hb hb
      · simp only [List.singleton_append, List.cons.injEq] at h
        exact ⟨hn h.1, h.2⟩
      · simp only [List.singleton_append, List.cons_append, List.cons.injEq] at h
        omega
      · simp only [List.singleton_append, List.cons_append, List.cons.injEq] at h
        omega
      · simp only [List.cons_append, List.nil_append, List.cons.injEq] at h
        exact ⟨hn (by omega), h.2.2⟩
    have hlist : ∀ l1 l2 : List Char,
        l1.flatMap QString.utf16Char = l2.flatMap QString.utf16Char → l1 = l2 := by
      intro l1
      induction l1 with
      | nil =>
        intro l2 h
        cases l2 with
        | nil => rfl
        | cons c cs =>
          obtain ⟨x, xs, hx⟩ := hne c
          simp [List.flatMap_cons, hx] at h
      | cons c1 t1 ih =>
        intro l2 h
        cases l2 with
        | nil =>
          obtain ⟨x, xs, hx⟩ := hne c1
          simp [List.flatMap_cons, hx] at h
        | cons c2 t2 =>
          simp only [List.flatMap_cons] at h
          obtain ⟨hc, ht⟩ := hchar c1 c2 _ _ h
          rw [hc, ih t2 ht]
    intro s1 s2 h
    cases s1
    cases s2
    simp only [QString.utf16] at h
    rw [hlist _ _ h])

/-! ## The environment: database and bundle directory -/

/-- A `QSqlQuery` after execution, as the program reads it: either `lastError()` is set, or the
rows that `next()` walks through. -/
inductive QSqlQuery (Row : Type) where
  | failed (text : String)
  | active (rows : List Row)
  deriving DecidableEq

/-- What an open database answers to a piece of SQL text. There is one field for each way the
program reads the columns of a row: `execNames` for `value(0).toString()`, `execCounts` for
`value(0).toString()` with `value(1).toInt()`, `execSymbols` for `value(0).toString()` with
`value(1).toString()`. -/
structure QSqlDatabase where
  execNames : String → QSqlQuery String
  execCounts : String → QSqlQuery (String × Int)
  execSymbols : String → QSqlQuery (String × String)

/-- The state of the member `db`, a `QSqlDatabase` connection handle: `invalid` as
default-constructed, `closed` once `addDatabase` has attached the SQLite driver, `opened` on the
content of the database file once `open()` has succeeded. -/
inductive DbHandle where
  | invalid
  | closed
  | opened (content : QSqlDatabase)

/-- Member function `QSqlDatabase::isOpen`. -/
def DbHandle.isOpen : DbHandle → Bool
  | DbHandle.opened _ => true
  | _ => false

/-- Modelled from the spec: `DocsetInfo` of the property-list parser, which is not among the
sources; the three fields are those `docset.cpp` reads. -/
structure DocsetInfo where
  family : String := ""
  bundleName : String := ""
  bundleIdentifier : String := ""
  deriving DecidableEq

/-- Modelled from the spec: the `Docset::Type` enumeration of `docset.h`, which is not among the
sources: the two schema variants, and `Invalid` for the value the member has before the schema
has been detected. -/
inductive DocsetType where
  | Invalid
  | Dash
  | ZDash
  deriving DecidableEq

/-- What the constructor finds for the path it is given. -/
structure Bundle where
  /-- Result of `QDir(path).exists()` -/
  dirExists : Bool
  /-- Result of `dir.dirName()` -/
  dirName : String
  /-- Result of `dir.cd("Contents")` -/
  hasContents : Bool
  /-- Result of `dir.exists("Info.plist")` inside `Contents` -/
  hasInfoPlist : Bool
  /-- Result of `dir.exists("info.plist")` inside `Contents` -/
  hasInfoPlistLower : Bool
  /-- Result of `DocsetInfo::fromPlist` on the named file inside `Contents` -/
  fromPlist : String → DocsetInfo
  /-- Result of `dir.cd("Resources")` inside `Contents` -/
  hasResources : Bool
  /-- Result of `db.open()` on `Resources/docSet.dsidx` -/
  dbOpens : Bool
  /-- The content of `docSet.dsidx` -/
  database : QSqlDatabase
  /-- Result of `dir.cd("Documents")` inside `Resources` -/
  hasDocuments : Bool
  /-- Result of `QDir(path).entryList("icon.*", QDir::Files)` -/
  iconFiles : List String
  /-- Whether `QIcon(name).availableSizes()` is non-empty -/
  iconAvailable : String → Bool

/-- A directory check (`QDir::exists`, `QDir::cd`) or a database operation
(`QSqlDatabase::open`, `QSqlDatabase::exec`) performed by a `Docset`. -/
inductive Op where
  | dirExists
  | cd (name : String)
  | fileExists (name : String)
  | dbOpen
  | exec (sql : String)
  deriving DecidableEq

/-! ## The class `Docset` -/

/-- The members of `Docset`. A `QIcon` is represented by the name it was built from (the empty
string for the null icon), and `trace` is the ghost list of operations performed so far. The
member `metadata`, read from `meta.json` and used by no member function, is left out. -/
structure Docset where
  m_path : String
  m_name : String := ""
  m_type : DocsetType := DocsetType.Invalid
  info : DocsetInfo := {}
  prefixStr : String := ""
  m_icon : String := ""
  db : DbHandle := DbHandle.invalid
  m_isValid : Bool := false
  m_symbolStrings : QMap SymbolType String := []
  m_symbolCounts : QMap SymbolType Int := []
  m_symbols : QMap SymbolType (QMap String String) := []
  trace : List Op := []

/-- Member function `Docset::isValid`. -/
def Docset.isValid (d : Docset) : Bool := d.m_isValid

/-- Member function `Docset::name`. -/
def Docset.name (d : Docset) : String := d.m_name

/-- Member function `Docset::type`. -/
def Docset.type (d : Docset) : DocsetType := d.m_type

/-- Member function `Docset::path`. -/
def Docset.path (d : Docset) : String := d.m_path

/-- Member function `Docset::documentPath`. -/
def Docset.documentPath (qt : QtLib) (d : Docset) : String :=
  qt.absoluteFilePath d.m_path "Contents/Resources/Documents"

/-- Member function `Docset::icon`. -/
def Docset.icon (d : Docset) : String := d.m_icon

/-- Member function `Docset::symbolCounts`. -/
def Docset.symbolCounts (d : Docset) : QMap SymbolType Int := d.m_symbolCounts

/-- Member function `Docset::symbolCount(SymbolType)`. -/
def Docset.symbolCount (d : Docset) (type : SymbolType) : Int :=
  QMap.value d.m_symbolCounts type 0

/-- Member function `Docset::symbolCount(const QString &)`. -/
def Docset.symbolCountStr (qt : QtLib) (d : Docset) (typeStr : String) : Int :=
  QMap.value d.m_symbolCounts (strToSymbolType qt typeStr) 0

/-- The call `db.exec(sql)`, with the rows read through `answer`. On the invalid handle the
query object carries the error of the missing driver. A connection that is not open executes
nothing, and neither does an empty query text; the query object then has no error recorded and
no rows. -/
def Docset.exec {Row : Type} (d : Docset) (answer : QSqlDatabase → String → QSqlQuery Row)
    (sql : String) : QSqlQuery Row × Docset :=
  (match d.db with
    | DbHandle.invalid => QSqlQuery.failed "Driver not loaded"
    | DbHandle.closed => QSqlQuery.active []
    | DbHandle.opened content => if sql = "" then QSqlQuery.active [] else answer content sql,
   { d with trace := d.trace ++ [Op.exec sql] })

/-- Member function `Docset::findIcon`: the first icon file of the bundle directory that loads;
failing that the icons named after the bundle name (blanks turned into underscores), the bundle
identifier and the docset name, in this order. Every candidate tried is assigned to `m_icon`, so
the last one stays there even when it does not load. -/
def Docset.findIcon (qt : QtLib) (b : Bundle) (d : Docset) : Docset :=
  match (b.iconFiles.map (qt.absoluteFilePath d.m_path)).find? b.iconAvailable with
  | some iconFile => { d with m_icon := iconFile }
  | none =>
    let byBundleName :=
      "docsetIcon:" ++ QString.replaceChar d.info.bundleName ' ' '_' ++ ".png"
    if b.iconAvailable byBundleName then { d with m_icon := byBundleName }
    else
      let byIdentifier := "docsetIcon:" ++ d.info.bundleIdentifier ++ ".png"
      if b.iconAvailable byIdentifier then { d with m_icon := byIdentifier }
      else { d with m_icon := "docsetIcon:" ++ d.m_name ++ ".png" }

/-- The query of `Docset::countSymbols` for the schema in `m_type`. For any other value of
`m_type` nothing is executed: the query object stays default-constructed, without a driver, and
no row is read from it. -/
def Docset.countQuery (d : Docset) : QSqlQuery (String × Int) × Docset :=
  match d.m_type with
  | DocsetType.Dash =>
    d.exec QSqlDatabase.execCounts "SELECT type, COUNT(*) FROM searchIndex GROUP BY type"
  | DocsetType.ZDash =>
    d.exec QSqlDatabase.execCounts
      ("SELECT ztypename, COUNT(*) FROM ztoken JOIN ztokentype"
        ++ " ON ztoken.ztokentype = ztokentype.z_pk GROUP BY ztypename")
  | DocsetType.Invalid => (QSqlQuery.failed "Driver not loaded", d)

/-- One turn of the `while (query.next())` loop of `Docset::countSymbols`. -/
def Docset.countRow (qt : QtLib) (d : Docset) (row : String × Int) : Docset :=
  let symbolTypeStr := row.1
  let symbolType := strToSymbolType qt symbolTypeStr
  if symbolType = SymbolType.Invalid then d
  else
    { d with
      m_symbolStrings := QMap.insert symbolType symbolTypeStr d.m_symbolStrings
      m_symbolCounts := QMap.insert symbolType row.2 d.m_symbolCounts }

/-- Member function `Docset::countSymbols`. -/
def Docset.countSymbols (qt : QtLib) (d : Docset) : Docset :=
  match d.countQuery with
  | (QSqlQuery.failed _, d1) => d1
  | (QSqlQuery.active rows, d1) => rows.foldl (Docset.countRow qt) d1

/-- The text `queryStr` that `Docset::loadSymbols` builds. `m_symbolStrings[symbolType]` is read
in a const member function, so an absent kind reads as the empty string. -/
def Docset.symbolsQueryStr (d : Docset) (symbolType : SymbolType) : String :=
  match d.m_type with
  | DocsetType.Dash =>
    "SELECT name, path FROM searchIndex WHERE type='"
      ++ QMap.value d.m_symbolStrings symbolType ""
      ++ "' ORDER BY name ASC"
  | DocsetType.ZDash =>
    "SELECT ztokenname AS name, "
      ++ "CASE WHEN (zanchor IS NULL) THEN zpath "
      ++ "ELSE (zpath || '#' || zanchor) "
      ++ "END AS path FROM ztoken "
      ++ "JOIN ztokenmetainformation ON ztoken.zmetainformation = ztokenmetainformation.z_pk "
      ++ "JOIN zfilepath ON ztokenmetainformation.zfile = zfilepath.z_pk "
      ++ "JOIN ztokentype ON ztoken.ztokentype = ztokentype.z_pk WHERE ztypename='"
      ++ QMap.value d.m_symbolStrings symbolType ""
      ++ "' ORDER BY ztokenname ASC"
  | DocsetType.Invalid => ""

/-- One turn of the `while (query.next())` loop of `Docset::loadSymbols`, on the map `symbols`
that the loop fills.  The map is a `QMap<QString, QString>`, so its keys are ordered by
`QString.linearOrder`. -/
def Docset.loadRow (qt : QtLib) (d : Docset) (symbols : QMap String String)
    (row : String × String) : QMap String String :=
  @QMap.insertMulti String String QString.linearOrder row.1
    (qt.absoluteFilePath (Docset.documentPath qt d) row.2) symbols

/-- Member function `Docset::loadSymbols`. On a query error it returns before `m_symbols` is
touched; otherwise `m_symbols[symbolType]` creates the entry when it is absent and the loop
fills it. -/
def Docset.loadSymbols (qt : QtLib) (d : Docset) (symbolType : SymbolType) : Docset :=
  match d.exec QSqlDatabase.execSymbols (d.symbolsQueryStr symbolType) with
  | (QSqlQuery.failed _, d1) => d1
  | (QSqlQuery.active rows, d1) =>
    let cache := QMap.subscript d1.m_symbols symbolType []
    let symbols := rows.foldl (Docset.loadRow qt d1) (QMap.value cache symbolType [])
    { d1 with m_symbols := QMap.insert symbolType symbols cache }

/-- Member function `Docset::symbols`: the map returned, and the object afterwards. `m_symbols`
is a mutable member, so `m_symbols[type]` in the return statement is the non-const `operator[]`.
-/
def Docset.symbols (qt : QtLib) (d : Docset) (type : SymbolType) :
    QMap String String × Docset :=
  let d1 := if QMap.contains d.m_symbols type then d else d.loadSymbols qt type
  let cache := QMap.subscript d1.m_symbols type []
  (QMap.value cache type [], { d1 with m_symbols := cache })

/-- The loop of the constructor that looks for the table `searchIndex` among the names the
catalog query returns. -/
def Docset.detectType : List String → DocsetType
  | [] => DocsetType.ZDash
  | name :: names =>
    if name = "searchIndex" then DocsetType.Dash else Docset.detectType names

/-- The SQL text of the catalog query of the constructor. -/
def Docset.catalogQueryStr : String := "SELECT name FROM sqlite_master WHERE type='table'"

/-- The constructor `Docset::Docset(path)`, run against the bundle `b`. -/
def Docset.construct (qt : QtLib) (b : Bundle) (path : String) : Docset :=
  let d : Docset := { m_path := path, trace := [Op.dirExists] }
  if !b.dirExists then d
  else
    let d := { d with
      m_name := QString.replace b.dirName ".docset" ""
      trace := d.trace ++ [Op.cd "Contents"] }
    if !b.hasContents then d
    else
      let d := { d with trace := d.trace ++ [Op.fileExists "Info.plist"] }
      let d :=
        if b.hasInfoPlist then d
        else { d with trace := d.trace ++ [Op.fileExists "info.plist"] }
      if !(b.hasInfoPlist || b.hasInfoPlistLower) then d
      else
        let d := { d with
          info := if b.hasInfoPlist then b.fromPlist "Info.plist"
                  else b.fromPlist "info.plist" }
        let d :=
          if d.info.family = "cheatsheet" then { d with m_name := d.m_name ++ "_cheats" }
          else d
        let d := { d with trace := d.trace ++ [Op.cd "Resources"] }
        if !b.hasResources then d
        else
          let d := { d with db := DbHandle.closed, trace := d.trace ++ [Op.dbOpen] }
          if !b.dbOpens then d
          else
            let d := { d with db := DbHandle.opened b.database }
            match d.exec QSqlDatabase.execNames Docset.catalogQueryStr with
            | (QSqlQuery.failed _, d) => d
            | (QSqlQuery.active names, d) =>
              let d := { d with
                m_type := Docset.detectType names
                trace := d.trace ++ [Op.cd "Documents"] }
              if !b.hasDocuments then d
              else
                let d := { d with
                  prefixStr :=
                    if d.info.bundleName = "" then d.m_name else d.info.bundleName }
                let d := d.findIcon qt b
                let d := d.countSymbols qt
                { d with m_isValid := true }

/-! ## Concrete objects for the examples -/

/-- A database that lists the single table `searchIndex`, answers every count query with
`counts` and every index query with `symbols`. -/
def exampleDatabase (counts : List (String × Int)) (symbols : List (String × String)) :
    QSqlDatabase where
  execNames := fun _ => QSqlQuery.active ["searchIndex"]
  execCounts := fun _ => QSqlQuery.active counts
  execSymbols := fun _ => QSqlQuery.active symbols

/-- A database on which the count query and every index query fail. -/
def failingDatabase : QSqlDatabase where
  execNames := fun _ => QSqlQuery.active ["searchIndex"]
  execCounts := fun _ => QSqlQuery.failed "no such column: type"
  execSymbols := fun _ => QSqlQuery.failed "no such table: searchIndex"

/-- A flat-schema docset on the database `db`, in the state the constructor has reached just
before it calls `countSymbols`. -/
def exampleDocset (db : QSqlDatabase) : Docset where
  m_path := "/docs/Qt5.docset"
  m_name := "Qt5"
  m_type := DocsetType.Dash
  db := DbHandle.opened db

/-- A bundle directory `Qt5.docset` in which every step of the constructor succeeds, with the
given parsed property list and database. -/
def exampleBundle (info : DocsetInfo) (db : QSqlDatabase) : Bundle where
  dirExists := true
  dirName := "Qt5.docset"
  hasContents := true
  hasInfoPlist := true
  hasInfoPlistLower := false
  fromPlist := fun _ => info
  hasResources := true
  dbOpens := true
  database := db
  hasDocuments := true
  iconFiles := []
  iconAvailable := fun _ => false

/-- The legacy-schema scenario of section 8 of the spec: a bundle whose table holds the rows
`("foo", "function", "a.html")` and `("bar", "function", "b.html")`, constructed from the path
`/docs/Qt5.docset`. -/
def legacyScenario : Docset :=
  Docset.construct asciiQt
    (exampleBundle {}
      (exampleDatabase [("function", 2)] [("foo", "a.html"), ("bar", "b.html")]))
    "/docs/Qt5.docset"

/-- Three symbol names for the examples: the letter `a`, the character `U+FFFD` of the basic
plane, and the character `U+1F600`, which `QString` stores as the surrogates `D83D DE00`. -/
def exampleNames : String × String × String :=
  ("a", String.singleton (Char.ofNat 0xFFFD), String.singleton (Char.ofNat 0x1F600))

/-- A database that lists the tables `names` and holds no symbols. -/
def catalogDatabase (names : List String) : QSqlDatabase where
  execNames := fun _ => QSqlQuery.active names
  execCounts := fun _ => QSqlQuery.active []
  execSymbols := fun _ => QSqlQuery.active []

/-- The bundle directory `Qt5.docset` without its `Contents` subdirectory. -/
def bundleWithoutContents : Bundle :=
  { exampleBundle {} (exampleDatabase [] []) with hasContents := false }

/-! ## Facts about the containers -/

theorem QHash.value_eq_default_iff {V : Type} (h : List (String × V)) (key : String)
    (defaultValue : V) (hv : ∀ e ∈ h, e.2 ≠ defaultValue) :
    QHash.value h key defaultValue = defaultValue ↔ key ∉ h.map Prod.fst := by
  induction h with
  | nil => simp [QHash.value]
  | cons e t ih =>
    obtain ⟨k, v⟩ := e
    have hv1 : v ≠ defaultValue := hv (k, v) (List.mem_cons_self _ _)
    have ih1 := ih (fun e he => hv e (List.mem_cons_of_mem _ he))
    by_cases hk : key = k
    · subst hk
      simp [QHash.value, List.lookup, hv1]
    · have hb : (key == k) = false := by simpa using hk
      simp only [QHash.value, List.lookup, hb, List.map_cons, List.mem_cons, hk, false_or]
      exact ih1

theorem typeStrings_values_ne_invalid : ∀ e ∈ typeStrings, e.2 ≠ SymbolType.Invalid := by
  decide

/-- C1. `strToSymbolType` is a total function of the lower-cased string alone: two strings that
are equal ignoring case, that is with the same lower-cased form, get the same kind; the kind is
the sentinel `Invalid` exactly when the lower-cased string is not a key of the alias table; and
the aliases `cl`/`class`, `enum`/`enumeration`, `func`/`function`, `struct`/`structure` give
Class, Enumeration, Function, Structure. -/
theorem strToSymbolType_spec (qt : QtLib) :
    (∀ s t : String, qt.toLower s = qt.toLower t →
      strToSymbolType qt s = strToSymbolType qt t) ∧
    (∀ s : String, strToSymbolType qt s = SymbolType.Invalid ↔
      qt.toLower s ∉ typeStrings.map Prod.fst) ∧
    (∀ s : String, qt.toLower s = "cl" ∨ qt.toLower s = "class" →
      strToSymbolType qt s = SymbolType.Class) ∧
    (∀ s : String, qt.toLower s = "enum" ∨ qt.toLower s = "enumeration" →
      strToSymbolType qt s = SymbolType.Enumeration) ∧
    (∀ s : String, qt.toLower s = "func" ∨ qt.toLower s = "function" →
      strToSymbolType qt s = SymbolType.Function) ∧
    (∀ s : String, qt.toLower s = "struct" ∨ qt.toLower s = "structure" →
      strToSymbolType qt s = SymbolType.Structure) := by
  refine ⟨?_, ?_, ?_, ?_, ?_, ?_⟩
  · intro s t h
    simp only [strToSymbolType, h]
  · intro s
    exact QHash.value_eq_default_iff typeStrings _ _ typeStrings_values_ne_invalid
  all_goals
    intro s h
    rcases h with h | h <;> simp only [strToSymbolType, h] <;> decide

theorem strToSymbolType_spec_witness :
    strToSymbolType asciiQt "CLASS" = strToSymbolType asciiQt "class" ∧
    strToSymbolType asciiQt "cl" = SymbolType.Class ∧
    strToSymbolType asciiQt "CLASS" = SymbolType.Class ∧
    strToSymbolType asciiQt "Enum" = SymbolType.Enumeration ∧
    strToSymbolType asciiQt "FUNCTION" = SymbolType.Function ∧
    strToSymbolType asciiQt "Struct" = SymbolType.Structure :=
  ⟨(strToSymbolType_spec asciiQt).1 "CLASS" "class" (by decide),
   (strToSymbolType_spec asciiQt).2.2.1 "cl" (Or.inl (by decide)),
   (strToSymbolType_spec asciiQt).2.2.1 "CLASS" (Or.inr (by decide)),
   (strToSymbolType_spec asciiQt).2.2.2.1 "Enum" (Or.inl (by decide)),
   (strToSymbolType_spec asciiQt).2.2.2.2.1 "FUNCTION" (Or.inr (by decide)),
   (strToSymbolType_spec asciiQt).2.2.2.2.2 "Struct" (Or.inl (by decide))⟩

/-- The fuel `QString.replace` starts with is enough: any fuel that is at least the length of
the text gives the same result. -/
theorem QString.replaceAux_fuel (before after : List Char) (hne : before ≠ []) :
    ∀ (fuel1 fuel2 : Nat) (s : List Char), s.length ≤ fuel1 → s.length ≤ fuel2 →
      QString.replaceAux before after fuel1 s = QString.replaceAux before after fuel2 s := by
  have hlen : 1 ≤ before.length := by
    cases before with
    | nil => exact absurd rfl hne
    | cons x xs => simp
  intro fuel1
  induction fuel1 with
  | zero =>
    intro fuel2 s h1 _
    have hs : s = [] := List.length_eq_zero.mp (Nat.le_zero.mp h1)
    subst hs
    cases fuel2 <;> rfl
  | succ n ih =>
    intro fuel2 s h1 h2
    cases s with
    | nil => cases fuel2 <;> rfl
    | cons c cs =>
      cases fuel2 with
      | zero => simp at h2
      | succ m =>
        simp only [List.length_cons, Nat.add_le_add_iff_right] at h1 h2
        simp only [QString.replaceAux]
        have hdrop : ((c :: cs).drop before.length).length ≤ cs.length := by
          simp only [List.length_drop, List.length_cons]
          omega
        rw [ih m ((c :: cs).drop before.length) (le_trans hdrop h1) (le_trans hdrop h2),
          ih m cs h1 h2]

theorem QMap.value_insert_self {K V : Type} [DecidableEq K] [LinearOrder K] (key : K)
    (value dflt : V) (m : QMap K V) : QMap.value (QMap.insert key value m) key dflt = value := by
  induction m with
  | nil => simp [QMap.insert, QMap.value]
  | cons e m ih =>
    unfold QMap.insert
    by_cases h1 : e.1 < key
    · have hne : ¬ e.1 = key := ne_of_lt h1
      simp only [h1, if_true]
      simpa [QMap.value, List.find?, hne] using ih
    · by_cases h2 : key < e.1 <;> simp [h1, h2, QMap.value, List.find?]

theorem QMap.value_insert_of_ne {K V : Type} [DecidableEq K] [LinearOrder K] (key other : K)
    (value dflt : V) (m : QMap K V) (hne : other ≠ key) :
    QMap.value (QMap.insert key value m) other dflt = QMap.value m other dflt := by
  have hne2 : ¬ key = other := fun h => hne h.symm
  induction m with
  | nil => simp [QMap.insert, QMap.value, List.find?, hne2]
  | cons e m ih =>
    unfold QMap.insert
    by_cases h1 : e.1 < key
    · simp only [h1, if_true]
      by_cases he : e.1 = other
      · simp [QMap.value, List.find?, he]
      · simpa [QMap.value, List.find?, he] using ih
    · by_cases h2 : key < e.1
      · simp [h1, h2, QMap.value, List.find?, hne2]
      · have hek : e.1 = key := le_antisymm (not_lt.mp h2) (not_lt.mp h1)
        have he : ¬ e.1 = other := by rw [hek]; exact hne2
        simp [h1, h2, QMap.value, List.find?, hne2, he]

theorem QMap.contains_insert {K V : Type} [DecidableEq K] [LinearOrder K] (key other : K)
    (value : V) (m : QMap K V) :
    QMap.contains (QMap.insert key value m) other = true ↔
      other = key ∨ QMap.contains m other = true := by
  induction m with
  | nil => simp [QMap.insert, QMap.contains, eq_comm]
  | cons e m ih =>
    unfold QMap.insert
    by_cases h1 : e.1 < key
    · simp only [h1, if_true]
      simp only [QMap.contains, List.any_cons, Bool.or_eq_true, decide_eq_true_eq] at ih ⊢
      rw [ih]
      tauto
    · by_cases h2 : key < e.1
      · simp only [h1, h2, if_true, if_false]
        simp only [QMap.contains, List.any_cons, Bool.or_eq_true, decide_eq_true_eq]
        constructor
        · rintro (h | h)
          · exact Or.inl h.symm
          · exact Or.inr h
        · rintro (h | h)
          · exact Or.inl h.symm
          · exact Or.inr h
      · have hek : e.1 = key := le_antisymm (not_lt.mp h2) (not_lt.mp h1)
        simp only [h1, h2, if_false]
        simp only [QMap.contains, List.any_cons, Bool.or_eq_true, decide_eq_true_eq, hek]
        constructor
        · rintro (h | h)
          · exact Or.inl h.symm
          · exact Or.inr (Or.inr h)
        · rintro (h | h | h)
          · exact Or.inl h.symm
          · exact Or.inl h
          · exact Or.inr h

theorem QMap.keys_insert_congr {K V W : Type} [LinearOrder K] (key : K) (a : V) (b : W)
    (m : QMap K V) (n : QMap K W) (h : QMap.keys m = QMap.keys n) :
    QMap.keys (QMap.insert key a m) = QMap.keys (QMap.insert key b n) := by
  induction m generalizing n with
  | nil =>
    cases n with
    | nil => simp [QMap.insert, QMap.keys]
    | cons f n => simp [QMap.keys] at h
  | cons e m ih =>
    cases n with
    | nil => simp [QMap.keys] at h
    | cons f n =>
      simp only [QMap.keys, List.map_cons, List.cons.injEq] at h
      obtain ⟨hk, ht⟩ := h
      have ih1 := ih n ht
      unfold QMap.insert
      by_cases h1 : e.1 < key
      · have h1f : f.1 < key := hk ▸ h1
        simp only [h1, h1f, if_true]
        simp only [QMap.keys, List.map_cons, List.cons.injEq] at ih1 ⊢
        exact ⟨hk, ih1⟩
      · have h1f : ¬ f.1 < key := hk ▸ h1
        by_cases h2 : key < e.1
        · have h2f : key < f.1 := hk ▸ h2
          simp [h1, h2, h1f, h2f, QMap.keys, hk, ht]
        · have h2f : ¬ key < f.1 := hk ▸ h2
          simp [h1, h2, h1f, h2f, QMap.keys, ht]

theorem QMap.insert_perm_of_not_contains {K V : Type} [DecidableEq K] [LinearOrder K]
    (key : K) (value : V) (m : QMap K V) (h : QMap.contains m key = false) :
    List.Perm (QMap.insert key value m) ((key, value) :: m) := by
  induction m with
  | nil => simp [QMap.insert]
  | cons e m ih =>
    simp only [QMap.contains, List.any_cons, Bool.or_eq_false_iff, decide_eq_false_iff_not] at h
    obtain ⟨hne, hm⟩ := h
    unfold QMap.insert
    by_cases h1 : e.1 < key
    · simp only [h1, if_true]
      exact ((ih hm).cons e).trans (List.Perm.swap _ _ _)
    · have h2 : key < e.1 := lt_of_le_of_ne (not_lt.mp h1) (fun h => hne h.symm)
      simp [h1, h2]

theorem QMap.insertMulti_perm {K V : Type} [LinearOrder K] (key : K) (value : V)
    (m : QMap K V) : List.Perm (QMap.insertMulti key value m) ((key, value) :: m) := by
  induction m with
  | nil => simp [QMap.insertMulti]
  | cons e m ih =>
    unfold QMap.insertMulti
    by_cases h1 : e.1 < key
    · simp only [h1, if_true]
      exact (ih.cons e).trans (List.Perm.swap _ _ _)
    · simp [h1]

theorem QMap.insertMulti_sorted {K V : Type} [LinearOrder K] (key : K) (value : V)
    (m : QMap K V) (h : List.Pairwise (fun a b => a.1 ≤ b.1) m) :
    List.Pairwise (fun a b => a.1 ≤ b.1) (QMap.insertMulti key value m) := by
  induction m with
  | nil => simp [QMap.insertMulti]
  | cons e m ih =>
    rw [List.pairwise_cons] at h
    obtain ⟨he, hm⟩ := h
    unfold QMap.insertMulti
    by_cases h1 : e.1 < key
    · simp only [h1, if_true]
      rw [List.pairwise_cons]
      refine ⟨?_, ih hm⟩
      intro x hx
      rcases List.mem_cons.mp ((QMap.insertMulti_perm key value m).subset hx) with hx1 | hx1
      · rw [hx1]; exact le_of_lt h1
      · exact he x hx1
    · simp only [h1, if_false]
      have hle : key ≤ e.1 := not_lt.mp h1
      rw [List.pairwise_cons]
      refine ⟨?_, List.pairwise_cons.mpr ⟨he, hm⟩⟩
      intro x hx
      rcases List.mem_cons.mp hx with hx1 | hx1
      · rw [hx1]; exact hle
      · exact le_trans hle (he x hx1)

/-! ## Facts about `countSymbols` -/

theorem Docset.countQuery_frame (d : Docset) :
    (d.countQuery).2.m_symbolCounts = d.m_symbolCounts ∧
    (d.countQuery).2.m_symbolStrings = d.m_symbolStrings ∧
    (d.countQuery).2.m_type = d.m_type := by
  cases h : d.m_type <;> simp [Docset.countQuery, h, Docset.exec]

theorem Docset.countSymbols_of_active (qt : QtLib) (d : Docset) (rows : List (String × Int))
    (h : (d.countQuery).1 = QSqlQuery.active rows) :
    d.countSymbols qt = rows.foldl (Docset.countRow qt) (d.countQuery).2 := by
  unfold Docset.countSymbols
  rcases hq : d.countQuery with ⟨q, d1⟩
  rw [hq] at h
  simp only at h
  subst h
  rfl

theorem Docset.countRow_of_invalid (qt : QtLib) (d : Docset) (row : String × Int)
    (h : strToSymbolType qt row.1 = SymbolType.Invalid) : Docset.countRow qt d row = d := by
  simp [Docset.countRow, h]

theorem Docset.countRow_of_valid (qt : QtLib) (d : Docset) (row : String × Int)
    (h : strToSymbolType qt row.1 ≠ SymbolType.Invalid) :
    (Docset.countRow qt d row).m_symbolCounts =
        QMap.insert (strToSymbolType qt row.1) row.2 d.m_symbolCounts ∧
    (Docset.countRow qt d row).m_symbolStrings =
        QMap.insert (strToSymbolType qt row.1) row.1 d.m_symbolStrings ∧
    (Docset.countRow qt d row).m_type = d.m_type := by
  simp [Docset.countRow, h]

theorem Docset.countRows_filter (qt : QtLib) (rows : List (String × Int)) (d : Docset) :
    rows.foldl (Docset.countRow qt) d =
      (rows.filter (fun r => decide (strToSymbolType qt r.1 ≠ SymbolType.Invalid))).foldl
        (Docset.countRow qt) d := by
  induction rows generalizing d with
  | nil => rfl
  | cons r rs ih =>
    by_cases h : strToSymbolType qt r.1 = SymbolType.Invalid
    · simp only [List.foldl_cons, Docset.countRow_of_invalid qt d r h]
      rw [ih d]
      simp [List.filter, h]
    · simp only [List.foldl_cons]
      rw [ih]
      simp [List.filter, h]

theorem Docset.countRows_counts_congr (qt : QtLib) (rows : List (String × Int))
    (d1 d2 : Docset) (hc : d1.m_symbolCounts = d2.m_symbolCounts) :
    (rows.foldl (Docset.countRow qt) d1).m_symbolCounts =
        (rows.foldl (Docset.countRow qt) d2).m_symbolCounts := by
  induction rows generalizing d1 d2 with
  | nil => exact hc
  | cons r rs ih =>
    simp only [List.foldl_cons]
    apply ih
    by_cases h : strToSymbolType qt r.1 = SymbolType.Invalid
    · simp [Docset.countRow, h, hc]
    · simp [Docset.countRow, h, hc]

theorem Docset.countRows_contains (qt : QtLib) (rows : List (String × Int)) (d : Docset)
    (k : SymbolType) :
    QMap.contains (rows.foldl (Docset.countRow qt) d).m_symbolCounts k = true ↔
      QMap.contains d.m_symbolCounts k = true ∨
      (k ≠ SymbolType.Invalid ∧ ∃ r ∈ rows, strToSymbolType qt r.1 = k) := by
  induction rows generalizing d with
  | nil => simp
  | cons r rs ih =>
    simp only [List.foldl_cons]
    rw [ih]
    by_cases h : strToSymbolType qt r.1 = SymbolType.Invalid
    · rw [Docset.countRow_of_invalid qt d r h]
      constructor
      · rintro (h1 | ⟨h1, r1, hr1, hk⟩)
        · exact Or.inl h1
        · exact Or.inr ⟨h1, r1, List.mem_cons_of_mem _ hr1, hk⟩
      · rintro (h1 | ⟨h1, r1, hr1, hk⟩)
        · exact Or.inl h1
        · rcases List.mem_cons.mp hr1 with hr2 | hr2
          · subst hr2
            exact absurd (hk ▸ h) h1
          · exact Or.inr ⟨h1, r1, hr2, hk⟩
    · rw [(Docset.countRow_of_valid qt d r h).1, QMap.contains_insert]
      constructor
      · rintro ((h1 | h1) | ⟨h1, r1, hr1, hk⟩)
        · exact Or.inr ⟨h1 ▸ h, r, List.mem_cons_self _ _, h1.symm⟩
        · exact Or.inl h1
        · exact Or.inr ⟨h1, r1, List.mem_cons_of_mem _ hr1, hk⟩
      · rintro (h1 | ⟨h1, r1, hr1, hk⟩)
        · exact Or.inl (Or.inr h1)
        · rcases List.mem_cons.mp hr1 with hr2 | hr2
          · subst hr2
            exact Or.inl (Or.inl hk.symm)
          · exact Or.inr ⟨h1, r1, hr2, hk⟩

theorem Docset.countRows_value (qt : QtLib) (rows : List (String × Int)) (d : Docset)
    (k : SymbolType) (hk : k ≠ SymbolType.Invalid) :
    QMap.value (rows.foldl (Docset.countRow qt) d).m_symbolCounts k 0 =
      ((rows.reverse.find? (fun r => decide (strToSymbolType qt r.1 = k))).map Prod.snd).getD
        (QMap.value d.m_symbolCounts k 0) := by
  induction rows using List.reverseRecOn with
  | nil => simp
  | append_singleton rs r ih =>
    simp only [List.foldl_append, List.foldl_cons, List.foldl_nil, List.reverse_append,
      List.reverse_cons, List.reverse_nil, List.nil_append, List.singleton_append,
      List.find?_cons]
    by_cases h : strToSymbolType qt r.1 = SymbolType.Invalid
    · have hne : ¬ strToSymbolType qt r.1 = k := fun h1 => hk (h1 ▸ h)
      rw [Docset.countRow_of_invalid qt _ r h]
      simpa [hne] using ih
    · rw [(Docset.countRow_of_valid qt _ r h).1]
      by_cases h1 : strToSymbolType qt r.1 = k
      · subst h1
        simp [QMap.value_insert_self]
      · rw [QMap.value_insert_of_ne _ _ _ _ _ (fun h2 => h1 h2.symm)]
        simpa [h1] using ih

theorem Docset.countRows_sum (qt : QtLib) (rows : List (String × Int)) (d : Docset)
    (hnodup : ((rows.filter (fun r => decide (strToSymbolType qt r.1 ≠ SymbolType.Invalid))).map
      (fun r => strToSymbolType qt r.1)).Nodup)
    (hfresh : ∀ r ∈ rows, QMap.contains d.m_symbolCounts (strToSymbolType qt r.1) = false) :
    (QMap.values (rows.foldl (Docset.countRow qt) d).m_symbolCounts).sum =
      (QMap.values d.m_symbolCounts).sum +
      ((rows.filter (fun r => decide (strToSymbolType qt r.1 ≠ SymbolType.Invalid))).map
        Prod.snd).sum := by
  induction rows generalizing d with
  | nil => simp
  | cons r rs ih =>
    simp only [List.foldl_cons]
    by_cases h : strToSymbolType qt r.1 = SymbolType.Invalid
    · rw [Docset.countRow_of_invalid qt d r h]
      have hf : (r :: rs).filter (fun r => decide (strToSymbolType qt r.1 ≠ SymbolType.Invalid))
          = rs.filter (fun r => decide (strToSymbolType qt r.1 ≠ SymbolType.Invalid)) := by
        simp [List.filter, h]
      rw [hf] at hnodup ⊢
      exact ih d hnodup (fun r1 hr1 => hfresh r1 (List.mem_cons_of_mem _ hr1))
    · have hf : (r :: rs).filter (fun r => decide (strToSymbolType qt r.1 ≠ SymbolType.Invalid))
          = r :: rs.filter (fun r => decide (strToSymbolType qt r.1 ≠ SymbolType.Invalid)) := by
        simp [List.filter, h]
      rw [hf] at hnodup ⊢
      simp only [List.map_cons, List.nodup_cons, List.mem_map, List.mem_filter,
        decide_eq_true_eq, not_exists, not_and, and_imp] at hnodup
      obtain ⟨hnot, hnd⟩ := hnodup
      have hperm := QMap.insert_perm_of_not_contains (strToSymbolType qt r.1) r.2
        d.m_symbolCounts (hfresh r (List.mem_cons_self _ _))
      have hsum : (QMap.values (Docset.countRow qt d r).m_symbolCounts).sum =
          r.2 + (QMap.values d.m_symbolCounts).sum := by
        rw [(Docset.countRow_of_valid qt d r h).1]
        have := (hperm.map Prod.snd).sum_eq
        simpa [QMap.values] using this
      rw [ih (Docset.countRow qt d r) hnd, hsum]
      · simp only [List.map_cons, List.sum_cons]
        ring
      · intro r1 hr1
        rw [(Docset.countRow_of_valid qt d r h).1]
        cases hc : QMap.contains (QMap.insert (strToSymbolType qt r.1) r.2 d.m_symbolCounts)
            (strToSymbolType qt r1.1) with
        | false => rfl
        | true =>
          rcases (QMap.contains_insert _ _ _ _).mp hc with h2 | h2
          · by_cases hinv : strToSymbolType qt r1.1 = SymbolType.Invalid
            · exact absurd (h2 ▸ hinv) h
            · exact absurd h2 (hnot r1 hr1 hinv)
          · rw [hfresh r1 (List.mem_cons_of_mem _ hr1)] at h2
            exact absurd h2 (by simp)

theorem Docset.countRows_inv (qt : QtLib) (rows : List (String × Int)) (d : Docset)
    (hc : d.m_symbolCounts = []) (hs : d.m_symbolStrings = []) :
    QMap.keys (rows.foldl (Docset.countRow qt) d).m_symbolStrings =
        QMap.keys (rows.foldl (Docset.countRow qt) d).m_symbolCounts ∧
    ∀ k, QMap.contains (rows.foldl (Docset.countRow qt) d).m_symbolCounts k = true →
      ∃ r ∈ rows,
        QMap.value (rows.foldl (Docset.countRow qt) d).m_symbolStrings k "" = r.1 ∧
        strToSymbolType qt r.1 = k ∧
        QMap.value (rows.foldl (Docset.countRow qt) d).m_symbolCounts k 0 = r.2 := by
  induction rows using List.reverseRecOn with
  | nil => simp [hc, hs, QMap.keys, QMap.contains]
  | append_singleton rs r ih =>
    obtain ⟨ihk, ihv⟩ := ih
    simp only [List.foldl_append, List.foldl_cons, List.foldl_nil]
    by_cases h : strToSymbolType qt r.1 = SymbolType.Invalid
    · rw [Docset.countRow_of_invalid qt _ r h]
      refine ⟨ihk, fun k hk => ?_⟩
      obtain ⟨r1, hr1, h1⟩ := ihv k hk
      exact ⟨r1, List.mem_append_left _ hr1, h1⟩
    · obtain ⟨e1, e2, _⟩ := Docset.countRow_of_valid qt (rs.foldl (Docset.countRow qt) d) r h
      rw [e1, e2]
      refine ⟨QMap.keys_insert_congr _ _ _ _ _ ihk, fun k hk => ?_⟩
      by_cases hkr : k = strToSymbolType qt r.1
      · subst hkr
        refine ⟨r, by simp, ?_, rfl, ?_⟩
        · exact QMap.value_insert_self _ _ _ _
        · exact QMap.value_insert_self _ _ _ _
      · rcases (QMap.contains_insert _ _ _ _).mp hk with h2 | h2
        · exact absurd h2 hkr
        · obtain ⟨r1, hr1, h1, h3, h4⟩ := ihv k h2
          refine ⟨r1, List.mem_append_left _ hr1, ?_, h3, ?_⟩
          · rw [QMap.value_insert_of_ne _ _ _ _ _ hkr]; exact h1
          · rw [QMap.value_insert_of_ne _ _ _ _ _ hkr]; exact h4

/-! ## Symbol counting -/

/-- C2 (counterexample). With the aggregate rows `("cl", 5)` and `("class", 3)`, both of kind
Class, `symbolCounts()` is `{Class: 3}`: the values sum to 3, while the recognized rows count 8
symbols. -/
theorem countSymbols_sum_counterexample :
    ((exampleDocset (exampleDatabase [("cl", 5), ("class", 3)] [])).countQuery).1 =
      QSqlQuery.active [("cl", 5), ("class", 3)] ∧
    ((exampleDocset (exampleDatabase [("cl", 5), ("class", 3)] [])).countSymbols
      asciiQt).symbolCounts = [(SymbolType.Class, 3)] ∧
    (([("cl", (5 : Int)), ("class", 3)].filter
      (fun r => decide (strToSymbolType asciiQt r.1 ≠ SymbolType.Invalid))).map Prod.snd).sum
      = 8 ∧
    (QMap.values ((exampleDocset (exampleDatabase [("cl", 5), ("class", 3)] [])).countSymbols
      asciiQt).symbolCounts).sum ≠
    (([("cl", (5 : Int)), ("class", 3)].filter
      (fun r => decide (strToSymbolType asciiQt r.1 ≠ SymbolType.Invalid))).map
        Prod.snd).sum := by
  decide

/-- C2 (amended). After `countSymbols` on the rows of a successful count query, `symbolCount(k)`
of a kind `k` other than the sentinel `Invalid` is the count of the last row whose type string
canonicalizes to `k` (0 when there is none), and `symbolCount(Invalid)` is 0 whatever the rows;
and when no two recognized rows canonicalize to the same kind, the values of `symbolCounts()`
sum to the sum of the counts of all recognized rows. -/
theorem countSymbols_sum_of_distinct_kinds (qt : QtLib) (d : Docset)
    (rows : List (String × Int)) (hc : d.m_symbolCounts = [])
    (hq : (d.countQuery).1 = QSqlQuery.active rows) :
    (∀ k, k ≠ SymbolType.Invalid →
      (d.countSymbols qt).symbolCount k =
        ((rows.reverse.find? (fun r => decide (strToSymbolType qt r.1 = k))).map
          Prod.snd).getD 0) ∧
    (d.countSymbols qt).symbolCount SymbolType.Invalid = 0 ∧
    (((rows.filter (fun r => decide (strToSymbolType qt r.1 ≠ SymbolType.Invalid))).map
        (fun r => strToSymbolType qt r.1)).Nodup →
      (QMap.values (d.countSymbols qt).symbolCounts).sum =
        ((rows.filter (fun r => decide (strToSymbolType qt r.1 ≠ SymbolType.Invalid))).map
          Prod.snd).sum) := by
  have hc1 : (d.countQuery).2.m_symbolCounts = [] := by rw [(Docset.countQuery_frame d).1, hc]
  rw [Docset.countSymbols_of_active qt d rows hq]
  refine ⟨?_, ?_, ?_⟩
  · intro k hk
    rw [Docset.symbolCount, Docset.countRows_value qt rows _ k hk, hc1]
    rfl
  · cases hcon : QMap.contains
        (rows.foldl (Docset.countRow qt) (d.countQuery).2).m_symbolCounts
        SymbolType.Invalid with
    | true =>
      rcases (Docset.countRows_contains qt rows _ _).mp hcon with h1 | ⟨h1, _⟩
      · rw [hc1] at h1
        simp [QMap.contains] at h1
      · exact absurd rfl h1
    | false =>
      simp only [QMap.contains, List.any_eq_false, decide_eq_true_eq] at hcon
      simp only [Docset.symbolCount, QMap.value]
      have hfind : (rows.foldl (Docset.countRow qt) (d.countQuery).2).m_symbolCounts.find?
          (fun e => decide (e.1 = SymbolType.Invalid)) = none := by
        rw [List.find?_eq_none]
        intro e he
        simpa using hcon e he
      rw [hfind]
  · intro hnodup
    rw [Docset.symbolCounts, Docset.countRows_sum qt rows _ hnodup, hc1]
    · simp [QMap.values]
    · intro r _
      rw [hc1]
      rfl

theorem countSymbols_sum_of_distinct_kinds_witness :
    ((exampleDocset (exampleDatabase [("cl", 5), ("widget", 1), ("func", 2)] [])).countSymbols
      asciiQt).symbolCount SymbolType.Class = 5 ∧
    ((exampleDocset (exampleDatabase [("cl", 5), ("class", 3)] [])).countSymbols
      asciiQt).symbolCount SymbolType.Class = 3 ∧
    ((exampleDocset (exampleDatabase [("cl", 5), ("widget", 1)] [])).countSymbols
      asciiQt).symbolCount SymbolType.Invalid = 0 ∧
    (QMap.values ((exampleDocset
      (exampleDatabase [("cl", 5), ("widget", 1), ("func", 2)] [])).countSymbols
        asciiQt).symbolCounts).sum = 7 :=
  ⟨((countSymbols_sum_of_distinct_kinds asciiQt
      (exampleDocset (exampleDatabase [("cl", 5), ("widget", 1), ("func", 2)] []))
      [("cl", 5), ("widget", 1), ("func", 2)] rfl rfl).1 SymbolType.Class
        (by decide)).trans (by decide),
   ((countSymbols_sum_of_distinct_kinds asciiQt
      (exampleDocset (exampleDatabase [("cl", 5), ("class", 3)] []))
      [("cl", 5), ("class", 3)] rfl rfl).1 SymbolType.Class (by decide)).trans (by decide),
   (countSymbols_sum_of_distinct_kinds asciiQt
      (exampleDocset (exampleDatabase [("cl", 5), ("widget", 1)] []))
      [("cl", 5), ("widget", 1)] rfl rfl).2.1,
   ((countSymbols_sum_of_distinct_kinds asciiQt
      (exampleDocset (exampleDatabase [("cl", 5), ("widget", 1), ("func", 2)] []))
      [("cl", 5), ("widget", 1), ("func", 2)] rfl rfl).2.2 (by decide)).trans (by decide)⟩

/-- C7. `countSymbols` never records the sentinel `Invalid` in `symbolCounts()`; the resulting
`symbolCounts()` is determined by the recognized rows alone, in their order, so that inserting
or removing unrecognized rows anywhere leaves it unchanged; in particular one unrecognized row
between `pre` and `post` changes nothing and `post` is still processed. -/
theorem countSymbols_skips_unrecognized (qt : QtLib) :
    (∀ (d : Docset) (rows : List (String × Int)), d.m_symbolCounts = [] →
      (d.countQuery).1 = QSqlQuery.active rows →
      SymbolType.Invalid ∉ QMap.keys (d.countSymbols qt).symbolCounts) ∧
    (∀ (d1 d2 : Docset) (rows1 rows2 : List (String × Int)),
      d1.m_symbolCounts = d2.m_symbolCounts →
      (d1.countQuery).1 = QSqlQuery.active rows1 →
      (d2.countQuery).1 = QSqlQuery.active rows2 →
      rows1.filter (fun r => decide (strToSymbolType qt r.1 ≠ SymbolType.Invalid)) =
        rows2.filter (fun r => decide (strToSymbolType qt r.1 ≠ SymbolType.Invalid)) →
      (d1.countSymbols qt).symbolCounts = (d2.countSymbols qt).symbolCounts) ∧
    (∀ (d1 d2 : Docset) (pre post : List (String × Int)) (row : String × Int),
      d1.m_symbolCounts = d2.m_symbolCounts →
      (d1.countQuery).1 = QSqlQuery.active (pre ++ row :: post) →
      (d2.countQuery).1 = QSqlQuery.active (pre ++ post) →
      strToSymbolType qt row.1 = SymbolType.Invalid →
      (d1.countSymbols qt).symbolCounts = (d2.countSymbols qt).symbolCounts) := by
  have key : ∀ (d1 d2 : Docset) (rows1 rows2 : List (String × Int)),
      d1.m_symbolCounts = d2.m_symbolCounts →
      (d1.countQuery).1 = QSqlQuery.active rows1 →
      (d2.countQuery).1 = QSqlQuery.active rows2 →
      rows1.filter (fun r => decide (strToSymbolType qt r.1 ≠ SymbolType.Invalid)) =
        rows2.filter (fun r => decide (strToSymbolType qt r.1 ≠ SymbolType.Invalid)) →
      (d1.countSymbols qt).symbolCounts = (d2.countSymbols qt).symbolCounts := by
    intro d1 d2 rows1 rows2 hc h1 h2 hf
    rw [Docset.countSymbols_of_active qt d1 rows1 h1,
      Docset.countSymbols_of_active qt d2 rows2 h2,
      Docset.countRows_filter qt rows1, Docset.countRows_filter qt rows2, hf]
    apply Docset.countRows_counts_congr
    rw [(Docset.countQuery_frame d1).1, (Docset.countQuery_frame d2).1, hc]
  refine ⟨?_, key, ?_⟩
  · intro d rows hc hq hmem
    rw [Docset.countSymbols_of_active qt d rows hq] at hmem
    have hcon : QMap.contains
        (rows.foldl (Docset.countRow qt) (d.countQuery).2).m_symbolCounts
        SymbolType.Invalid = true := by
      simp only [Docset.symbolCounts, QMap.keys, List.mem_map] at hmem
      obtain ⟨e, he, hk⟩ := hmem
      simp only [QMap.contains, List.any_eq_true, decide_eq_true_eq]
      exact ⟨e, he, hk⟩
    rcases (Docset.countRows_contains qt rows _ _).mp hcon with h1 | ⟨h1, _⟩
    · rw [(Docset.countQuery_frame d).1, hc] at h1
      simp [QMap.contains] at h1
    · exact h1 rfl
  · intro d1 d2 pre post row hc h1 h2 hrow
    apply key d1 d2 _ _ hc h1 h2
    simp [List.filter_append, List.filter, hrow]

theorem countSymbols_skips_unrecognized_witness :
    SymbolType.Invalid ∉ QMap.keys
      ((exampleDocset (exampleDatabase [("cl", 5), ("widget", 1), ("func", 2)] [])).countSymbols
        asciiQt).symbolCounts ∧
    ((exampleDocset (exampleDatabase [("cl", 5), ("widget", 1), ("func", 2)] [])).countSymbols
        asciiQt).symbolCounts =
      ((exampleDocset (exampleDatabase [("cl", 5), ("func", 2)] [])).countSymbols
        asciiQt).symbolCounts ∧
    ((exampleDocset (exampleDatabase [("widget", 1), ("cl", 5), ("func", 2)] [])).countSymbols
        asciiQt).symbolCounts =
      ((exampleDocset (exampleDatabase [("cl", 5), ("func", 2)] [])).countSymbols
        asciiQt).symbolCounts :=
  ⟨(countSymbols_skips_unrecognized asciiQt).1
      (exampleDocset (exampleDatabase [("cl", 5), ("widget", 1), ("func", 2)] []))
      [("cl", 5), ("widget", 1), ("func", 2)] rfl rfl,
   (countSymbols_skips_unrecognized asciiQt).2.2
      (exampleDocset (exampleDatabase [("cl", 5), ("widget", 1), ("func", 2)] []))
      (exampleDocset (exampleDatabase [("cl", 5), ("func", 2)] []))
      [("cl", 5)] [("func", 2)] ("widget", 1) rfl rfl rfl (by decide),
   (countSymbols_skips_unrecognized asciiQt).2.1
      (exampleDocset (exampleDatabase [("widget", 1), ("cl", 5), ("func", 2)] []))
      (exampleDocset (exampleDatabase [("cl", 5), ("func", 2)] []))
      [("widget", 1), ("cl", 5), ("func", 2)] [("cl", 5), ("func", 2)] rfl rfl rfl
      (by decide)⟩

/-! ## The symbol cache -/

theorem QMap.contains_subscript {K V : Type} [DecidableEq K] [LinearOrder K] (m : QMap K V)
    (key : K) (dflt : V) : QMap.contains (QMap.subscript m key dflt) key = true := by
  unfold QMap.subscript
  by_cases h : QMap.contains m key = true
  · simp [h]
  · simp only [h]
    exact (QMap.contains_insert key key dflt m).mpr (Or.inl rfl)

theorem QMap.subscript_of_contains {K V : Type} [DecidableEq K] [LinearOrder K] (m : QMap K V)
    (key : K) (dflt : V) (h : QMap.contains m key = true) : QMap.subscript m key dflt = m := by
  simp [QMap.subscript, h]

theorem QMap.value_subscript_of_not_contains {K V : Type} [DecidableEq K] [LinearOrder K]
    (m : QMap K V) (key : K) (dflt : V) (h : QMap.contains m key = false) :
    QMap.value (QMap.subscript m key dflt) key dflt = dflt := by
  simp only [QMap.subscript, h]
  exact QMap.value_insert_self key dflt dflt m

theorem Docset.symbols_of_cached (qt : QtLib) (d : Docset) (type : SymbolType)
    (h : QMap.contains d.m_symbols type = true) :
    d.symbols qt type = (QMap.value d.m_symbols type [], d) := by
  simp [Docset.symbols, h, QMap.subscript_of_contains]

theorem Docset.exec_frame {Row : Type} (d : Docset)
    (answer : QSqlDatabase → String → QSqlQuery Row) (sql : String) :
    (d.exec answer sql).2 = { d with trace := d.trace ++ [Op.exec sql] } := rfl

theorem Docset.loadSymbols_of_failed (qt : QtLib) (d : Docset) (type : SymbolType)
    (text : String)
    (hq : (d.exec QSqlDatabase.execSymbols (d.symbolsQueryStr type)).1 = QSqlQuery.failed text) :
    d.loadSymbols qt type = { d with trace := d.trace ++ [Op.exec (d.symbolsQueryStr type)] } := by
  unfold Docset.loadSymbols
  rcases he : d.exec QSqlDatabase.execSymbols (d.symbolsQueryStr type) with ⟨q, d1⟩
  have h2 := Docset.exec_frame d QSqlDatabase.execSymbols (d.symbolsQueryStr type)
  rw [he] at hq h2
  simp only at hq h2
  subst hq
  subst h2
  rfl

theorem Docset.loadSymbols_of_active (qt : QtLib) (d : Docset) (type : SymbolType)
    (rows : List (String × String))
    (hq : (d.exec QSqlDatabase.execSymbols (d.symbolsQueryStr type)).1 = QSqlQuery.active rows) :
    d.loadSymbols qt type =
      { d with
        trace := d.trace ++ [Op.exec (d.symbolsQueryStr type)]
        m_symbols := QMap.insert type
          (rows.foldl (Docset.loadRow qt d)
            (QMap.value (QMap.subscript d.m_symbols type []) type []))
          (QMap.subscript d.m_symbols type []) } := by
  unfold Docset.loadSymbols
  rcases he : d.exec QSqlDatabase.execSymbols (d.symbolsQueryStr type) with ⟨q, d1⟩
  have h2 := Docset.exec_frame d QSqlDatabase.execSymbols (d.symbolsQueryStr type)
  rw [he] at hq h2
  simp only at hq h2
  subst hq
  subst h2
  rfl

theorem Docset.loadSymbols_trace (qt : QtLib) (d : Docset) (type : SymbolType) :
    (d.loadSymbols qt type).trace = d.trace ++ [Op.exec (d.symbolsQueryStr type)] := by
  rcases hq : (d.exec QSqlDatabase.execSymbols (d.symbolsQueryStr type)).1 with text | rows
  · rw [Docset.loadSymbols_of_failed qt d type text hq]
  · rw [Docset.loadSymbols_of_active qt d type rows hq]

theorem Docset.symbols_fst_of_active (qt : QtLib) (d : Docset) (type : SymbolType)
    (rows : List (String × String)) (hcache : QMap.contains d.m_symbols type = false)
    (hq : (d.exec QSqlDatabase.execSymbols (d.symbolsQueryStr type)).1 = QSqlQuery.active rows) :
    (d.symbols qt type).1 = rows.foldl (Docset.loadRow qt d) [] := by
  simp only [Docset.symbols, hcache, Bool.false_eq_true, if_false]
  rw [Docset.loadSymbols_of_active qt d type rows hq]
  simp only
  rw [QMap.value_subscript_of_not_contains _ _ _ hcache]
  have hc : QMap.contains (QMap.insert type (rows.foldl (Docset.loadRow qt d) [])
      (QMap.subscript d.m_symbols type [])) type = true :=
    (QMap.contains_insert _ _ _ _).mpr (Or.inl rfl)
  rw [QMap.subscript_of_contains _ _ _ hc]
  exact QMap.value_insert_self _ _ _ _

theorem Docset.symbols_of_failed (qt : QtLib) (d : Docset) (type : SymbolType)
    (text : String) (hcache : QMap.contains d.m_symbols type = false)
    (hq : (d.exec QSqlDatabase.execSymbols (d.symbolsQueryStr type)).1 = QSqlQuery.failed text) :
    (d.symbols qt type).1 = [] ∧
    (d.symbols qt type).2.m_symbols = QMap.insert type [] d.m_symbols := by
  have h1 : (d.symbols qt type).2.m_symbols = QMap.insert type [] d.m_symbols := by
    simp only [Docset.symbols, hcache, Bool.false_eq_true, if_false]
    rw [Docset.loadSymbols_of_failed qt d type text hq]
    simp [QMap.subscript, hcache]
  have hfst : (d.symbols qt type).1 = QMap.value (d.symbols qt type).2.m_symbols type [] := by
    simp only [Docset.symbols]
  refine ⟨?_, h1⟩
  rw [hfst, h1]
  exact QMap.value_insert_self _ _ _ _

theorem Docset.loadRows_perm_sorted (qt : QtLib) (d : Docset) (rows : List (String × String))
    (init : QMap String String)
    (hinit : List.Pairwise (fun a b => QString.utf16 a.1 ≤ QString.utf16 b.1) init) :
    List.Perm (rows.foldl (Docset.loadRow qt d) init)
      (rows.map (fun r => (r.1, qt.absoluteFilePath (d.documentPath qt) r.2)) ++ init) ∧
    List.Pairwise (fun a b => QString.utf16 a.1 ≤ QString.utf16 b.1)
      (rows.foldl (Docset.loadRow qt d) init) := by
  induction rows generalizing init with
  | nil => exact ⟨by simp, hinit⟩
  | cons r rs ih =>
    simp only [List.foldl_cons, List.map_cons, List.cons_append]
    obtain ⟨hp, hs⟩ := ih (Docset.loadRow qt d init r)
      (@QMap.insertMulti_sorted String String QString.linearOrder _ _ _ hinit)
    refine ⟨?_, hs⟩
    refine hp.trans ?_
    refine ((@QMap.insertMulti_perm String String QString.linearOrder r.1 _ init).append_left
      _).trans ?_
    exact List.perm_middle

/-- C8. On the first request for a kind whose index query succeeds with `rows`, `symbols(kind)`
holds exactly one entry per row (it is a permutation of the rows, each name paired with its path
resolved against `documentPath()`), and its entries are in non-decreasing name order, the order
of names being that of `QString`: lexicographic on UTF-16 code units. -/
theorem symbols_sorted_by_name (qt : QtLib) (d : Docset) (type : SymbolType)
    (rows : List (String × String)) (hcache : QMap.contains d.m_symbols type = false)
    (hq : (d.exec QSqlDatabase.execSymbols (d.symbolsQueryStr type)).1 = QSqlQuery.active rows) :
    List.Perm (d.symbols qt type).1
      (rows.map (fun r => (r.1, qt.absoluteFilePath (d.documentPath qt) r.2))) ∧
    List.Pairwise (fun a b => QString.utf16 a.1 ≤ QString.utf16 b.1) (d.symbols qt type).1 := by
  rw [Docset.symbols_fst_of_active qt d type rows hcache hq]
  have h := Docset.loadRows_perm_sorted qt d rows [] List.Pairwise.nil
  simpa using h

theorem symbols_sorted_by_name_witness :
    legacyScenario.symbolCounts = [(SymbolType.Function, 2)] ∧
    List.Perm (legacyScenario.symbols asciiQt SymbolType.Function).1
      [("foo", "/docs/Qt5.docset/Contents/Resources/Documents/a.html"),
       ("bar", "/docs/Qt5.docset/Contents/Resources/Documents/b.html")] ∧
    List.Pairwise (fun a b => QString.utf16 a.1 ≤ QString.utf16 b.1)
      (legacyScenario.symbols asciiQt SymbolType.Function).1 ∧
    (legacyScenario.symbols asciiQt SymbolType.Function).1 =
      [("bar", "/docs/Qt5.docset/Contents/Resources/Documents/b.html"),
       ("foo", "/docs/Qt5.docset/Contents/Resources/Documents/a.html")] ∧
    List.Pairwise (fun a b => QString.utf16 a.1 ≤ QString.utf16 b.1)
      ((exampleDocset (exampleDatabase []
        [(exampleNames.1, "a.html"), (exampleNames.2.1, "r.html"),
          (exampleNames.2.2, "g.html")])).symbols asciiQt SymbolType.Function).1 ∧
    ((exampleDocset (exampleDatabase []
        [(exampleNames.1, "a.html"), (exampleNames.2.1, "r.html"),
          (exampleNames.2.2, "g.html")])).symbols asciiQt SymbolType.Function).1 =
      [(exampleNames.1, "/docs/Qt5.docset/Contents/Resources/Documents/a.html"),
       (exampleNames.2.2, "/docs/Qt5.docset/Contents/Resources/Documents/g.html"),
       (exampleNames.2.1, "/docs/Qt5.docset/Contents/Resources/Documents/r.html")] :=
  ⟨by decide,
   (symbols_sorted_by_name asciiQt legacyScenario SymbolType.Function
      [("foo", "a.html"), ("bar", "b.html")] rfl rfl).1,
   (symbols_sorted_by_name asciiQt legacyScenario SymbolType.Function
      [("foo", "a.html"), ("bar", "b.html")] rfl rfl).2,
   by decide,
   (symbols_sorted_by_name asciiQt
      (exampleDocset (exampleDatabase []
        [(exampleNames.1, "a.html"), (exampleNames.2.1, "r.html"),
          (exampleNames.2.2, "g.html")])) SymbolType.Function
      [(exampleNames.1, "a.html"), (exampleNames.2.1, "r.html"),
        (exampleNames.2.2, "g.html")] rfl rfl).2,
   by decide⟩

/-- C3. For every kind, every object state and every database: after a first call of
`symbols(kind)` the kind is in the cache; a second call, whatever the database holds by then,
returns the same map, leaves the object as it is and issues no query. A first call on an
uncached kind issues exactly one query, and when that query fails the entry cached and returned
is the empty map. -/
theorem symbols_memoized (qt : QtLib) (d : Docset) (type : SymbolType)
    (later : DbHandle) :
    QMap.contains (d.symbols qt type).2.m_symbols type = true ∧
    (Docset.symbols qt { (d.symbols qt type).2 with db := later } type).1 =
      (d.symbols qt type).1 ∧
    (Docset.symbols qt { (d.symbols qt type).2 with db := later } type).2 =
      { (d.symbols qt type).2 with db := later } ∧
    (Docset.symbols qt { (d.symbols qt type).2 with db := later } type).2.trace =
      (d.symbols qt type).2.trace ∧
    (QMap.contains d.m_symbols type = false →
      (d.symbols qt type).2.trace = d.trace ++ [Op.exec (d.symbolsQueryStr type)]) ∧
    (∀ text, QMap.contains d.m_symbols type = false →
      (d.exec QSqlDatabase.execSymbols (d.symbolsQueryStr type)).1 = QSqlQuery.failed text →
      (d.symbols qt type).1 = [] ∧
      QMap.value (d.symbols qt type).2.m_symbols type [("", "")] = []) := by
  have hcached : QMap.contains (d.symbols qt type).2.m_symbols type = true := by
    simp only [Docset.symbols]
    exact QMap.contains_subscript _ _ _
  have hfst : (d.symbols qt type).1 = QMap.value (d.symbols qt type).2.m_symbols type [] := by
    simp only [Docset.symbols]
  have hsecond := Docset.symbols_of_cached qt { (d.symbols qt type).2 with db := later } type
    hcached
  refine ⟨hcached, ?_, ?_, ?_, ?_, ?_⟩
  · rw [hsecond, hfst]
  · rw [hsecond]
  · rw [hsecond]
  · intro hc
    simp only [Docset.symbols, hc, Bool.false_eq_true, if_false]
    exact Docset.loadSymbols_trace qt d type
  · intro text hc hq
    obtain ⟨h1, h2⟩ := Docset.symbols_of_failed qt d type text hc hq
    refine ⟨h1, ?_⟩
    rw [h2]
    exact QMap.value_insert_self _ _ _ _

theorem symbols_memoized_witness :
    ((exampleDocset failingDatabase).symbols asciiQt SymbolType.Function).1 = [] ∧
    QMap.contains ((exampleDocset failingDatabase).symbols asciiQt
      SymbolType.Function).2.m_symbols SymbolType.Function = true ∧
    (Docset.symbols asciiQt
      { ((exampleDocset failingDatabase).symbols asciiQt SymbolType.Function).2 with
        db := DbHandle.opened (exampleDatabase [] [("foo", "a.html")]) }
      SymbolType.Function).1 = [] ∧
    (Docset.symbols asciiQt
      { ((exampleDocset failingDatabase).symbols asciiQt SymbolType.Function).2 with
        db := DbHandle.opened (exampleDatabase [] [("foo", "a.html")]) }
      SymbolType.Function).2.trace =
      [Op.exec "SELECT name, path FROM searchIndex WHERE type='' ORDER BY name ASC"] :=
  ⟨((symbols_memoized asciiQt (exampleDocset failingDatabase) SymbolType.Function
      DbHandle.invalid).2.2.2.2.2 "no such table: searchIndex" rfl rfl).1,
   (symbols_memoized asciiQt (exampleDocset failingDatabase) SymbolType.Function
      DbHandle.invalid).1,
   ((symbols_memoized asciiQt (exampleDocset failingDatabase) SymbolType.Function
      (DbHandle.opened (exampleDatabase [] [("foo", "a.html")]))).2.1).trans (by decide),
   ((symbols_memoized asciiQt (exampleDocset failingDatabase) SymbolType.Function
      (DbHandle.opened (exampleDatabase [] [("foo", "a.html")]))).2.2.2.1).trans (by decide)⟩

/-! ## The constructor -/

theorem Docset.catalogQueryStr_ne_empty : Docset.catalogQueryStr ≠ "" := by decide

theorem Docset.countSymbols_frame (qt : QtLib) (d : Docset) :
    (d.countSymbols qt).m_name = d.m_name ∧ (d.countSymbols qt).m_type = d.m_type ∧
    (d.countSymbols qt).info = d.info ∧ (d.countSymbols qt).prefixStr = d.prefixStr ∧
    (d.countSymbols qt).m_icon = d.m_icon := by
  have hrow : ∀ (rows : List (String × Int)) (d1 : Docset),
      (rows.foldl (Docset.countRow qt) d1).m_name = d1.m_name ∧
      (rows.foldl (Docset.countRow qt) d1).m_type = d1.m_type ∧
      (rows.foldl (Docset.countRow qt) d1).info = d1.info ∧
      (rows.foldl (Docset.countRow qt) d1).prefixStr = d1.prefixStr ∧
      (rows.foldl (Docset.countRow qt) d1).m_icon = d1.m_icon := by
    intro rows
    induction rows with
    | nil => intro d1; simp
    | cons r rs ih =>
      intro d1
      simp only [List.foldl_cons]
      obtain ⟨h1, h2, h3, h4, h5⟩ := ih (Docset.countRow qt d1 r)
      rw [h1, h2, h3, h4, h5]
      by_cases h : strToSymbolType qt r.1 = SymbolType.Invalid <;> simp [Docset.countRow, h]
  have hq : (d.countQuery).2.m_name = d.m_name ∧ (d.countQuery).2.m_type = d.m_type ∧
      (d.countQuery).2.info = d.info ∧ (d.countQuery).2.prefixStr = d.prefixStr ∧
      (d.countQuery).2.m_icon = d.m_icon := by
    cases h : d.m_type <;> simp [Docset.countQuery, h, Docset.exec]
  unfold Docset.countSymbols
  rcases hd : d.countQuery with ⟨q, d1⟩
  rw [hd] at hq
  cases q with
  | failed text => exact hq
  | active rows =>
    simp only at hq ⊢
    obtain ⟨h1, h2, h3, h4, h5⟩ := hrow rows d1
    rw [h1, h2, h3, h4, h5]
    exact hq

theorem Docset.findIcon_frame (qt : QtLib) (b : Bundle) (d : Docset) :
    (d.findIcon qt b).m_name = d.m_name ∧ (d.findIcon qt b).m_type = d.m_type ∧
    (d.findIcon qt b).info = d.info ∧ (d.findIcon qt b).prefixStr = d.prefixStr := by
  unfold Docset.findIcon
  split
  · simp
  · simp only
    split_ifs <;> simp

/-- C10. After `countSymbols` on the rows of a successful count query, the kind-to-string table
and the count map have the same keys, and for every kind `k` among them there is a row whose
type string is the recorded string, canonicalizes to `k` and whose count is `symbolCount(k)`;
that string is the one `loadSymbols` filters on for `k`: the schema is Dash or ZDash, for either
of them the query text that `loadSymbols` builds has this string between the quotes of its
`WHERE` clause, and that text is what `loadSymbols` passes to `db.exec`. -/
theorem countSymbols_strings_match (qt : QtLib) (d : Docset) (rows : List (String × Int))
    (hc : d.m_symbolCounts = []) (hs : d.m_symbolStrings = [])
    (hq : (d.countQuery).1 = QSqlQuery.active rows) :
    QMap.keys (d.countSymbols qt).m_symbolStrings = QMap.keys (d.countSymbols qt).symbolCounts ∧
    ((d.countSymbols qt).type = DocsetType.Dash ∨
      (d.countSymbols qt).type = DocsetType.ZDash) ∧
    ∀ k, k ∈ QMap.keys (d.countSymbols qt).symbolCounts →
      ∃ r ∈ rows,
        QMap.value (d.countSymbols qt).m_symbolStrings k "" = r.1 ∧
        strToSymbolType qt (QMap.value (d.countSymbols qt).m_symbolStrings k "") = k ∧
        (d.countSymbols qt).symbolCount k = r.2 ∧
        ((d.countSymbols qt).type = DocsetType.Dash →
          (d.countSymbols qt).symbolsQueryStr k =
            "SELECT name, path FROM searchIndex WHERE type='" ++ r.1
              ++ "' ORDER BY name ASC") ∧
        ((d.countSymbols qt).type = DocsetType.ZDash →
          (d.countSymbols qt).symbolsQueryStr k =
            "SELECT ztokenname AS name, "
              ++ "CASE WHEN (zanchor IS NULL) THEN zpath "
              ++ "ELSE (zpath || '#' || zanchor) "
              ++ "END AS path FROM ztoken "
              ++ "JOIN ztokenmetainformation ON ztoken.zmetainformation = ztokenmetainformation.z_pk "
              ++ "JOIN zfilepath ON ztokenmetainformation.zfile = zfilepath.z_pk "
              ++ "JOIN ztokentype ON ztoken.ztokentype = ztokentype.z_pk WHERE ztypename='"
              ++ r.1
              ++ "' ORDER BY ztokenname ASC") ∧
        ((d.countSymbols qt).loadSymbols qt k).trace =
          (d.countSymbols qt).trace ++ [Op.exec ((d.countSymbols qt).symbolsQueryStr k)] := by
  have hc1 : (d.countQuery).2.m_symbolCounts = [] := by rw [(Docset.countQuery_frame d).1, hc]
  have hs1 : (d.countQuery).2.m_symbolStrings = [] := by
    rw [(Docset.countQuery_frame d).2.1, hs]
  have htype : (d.countSymbols qt).type = DocsetType.Dash ∨
      (d.countSymbols qt).type = DocsetType.ZDash := by
    rw [Docset.type, (Docset.countSymbols_frame qt d).2.1]
    cases ht : d.m_type with
    | Invalid =>
      simp [Docset.countQuery, ht] at hq
    | Dash => exact Or.inl rfl
    | ZDash => exact Or.inr rfl
  refine ⟨?_, htype, ?_⟩
  · rw [Docset.countSymbols_of_active qt d rows hq]
    exact (Docset.countRows_inv qt rows (d.countQuery).2 hc1 hs1).1
  · intro k hmem
    have htrace := Docset.loadSymbols_trace qt (d.countSymbols qt) k
    rw [Docset.countSymbols_of_active qt d rows hq] at hmem htrace ⊢
    obtain ⟨_, hv⟩ := Docset.countRows_inv qt rows (d.countQuery).2 hc1 hs1
    have hcon : QMap.contains
        (rows.foldl (Docset.countRow qt) (d.countQuery).2).m_symbolCounts k = true := by
      simp only [Docset.symbolCounts, QMap.keys, List.mem_map] at hmem
      obtain ⟨e, he, hke⟩ := hmem
      simp only [QMap.contains, List.any_eq_true, decide_eq_true_eq]
      exact ⟨e, he, hke⟩
    obtain ⟨r, hr, h1, h2, h3⟩ := hv k hcon
    refine ⟨r, hr, h1, by rw [h1]; exact h2, h3, ?_, ?_, htrace⟩
    · intro ht
      simp only [Docset.type] at ht
      simp only [Docset.symbolsQueryStr, ht, h1]
    · intro ht
      simp only [Docset.type] at ht
      simp only [Docset.symbolsQueryStr, ht, h1]

theorem countSymbols_strings_match_witness :
    QMap.keys ((exampleDocset (exampleDatabase [("cl", 5), ("class", 3), ("Func", 2)]
        [])).countSymbols asciiQt).m_symbolStrings = [SymbolType.Class, SymbolType.Function] ∧
    ∃ r ∈ [("cl", (5 : Int)), ("class", 3), ("Func", 2)],
      QMap.value ((exampleDocset (exampleDatabase [("cl", 5), ("class", 3), ("Func", 2)]
        [])).countSymbols asciiQt).m_symbolStrings SymbolType.Class "" = r.1 ∧
      ((exampleDocset (exampleDatabase [("cl", 5), ("class", 3), ("Func", 2)]
        [])).countSymbols asciiQt).symbolCount SymbolType.Class = r.2 ∧
      (((exampleDocset (exampleDatabase [("cl", 5), ("class", 3), ("Func", 2)]
        [])).countSymbols asciiQt).loadSymbols asciiQt SymbolType.Class).trace =
        ((exampleDocset (exampleDatabase [("cl", 5), ("class", 3), ("Func", 2)]
          [])).countSymbols asciiQt).trace ++
          [Op.exec ("SELECT name, path FROM searchIndex WHERE type='" ++ r.1
            ++ "' ORDER BY name ASC")] :=
  ⟨((countSymbols_strings_match asciiQt
      (exampleDocset (exampleDatabase [("cl", 5), ("class", 3), ("Func", 2)] []))
      [("cl", 5), ("class", 3), ("Func", 2)] rfl rfl rfl).1).trans (by decide),
   (((countSymbols_strings_match asciiQt
      (exampleDocset (exampleDatabase [("cl", 5), ("class", 3), ("Func", 2)] []))
      [("cl", 5), ("class", 3), ("Func", 2)] rfl rfl rfl).2.2 SymbolType.Class
        (by decide)).imp (fun _ h =>
          ⟨h.1, h.2.1, h.2.2.2.1, h.2.2.2.2.2.2.trans (by rw [h.2.2.2.2.1 rfl])⟩))⟩

/-- C6. When construction reaches the catalog query and that query succeeds with `names`,
`type()` is Dash exactly when `searchIndex` is one of the names and ZDash otherwise, whatever
the position of `searchIndex` and whatever the other names. -/
theorem construct_type_detection (qt : QtLib) (b : Bundle) (path : String)
    (names : List String) (hdir : b.dirExists = true) (hcontents : b.hasContents = true)
    (hplist : b.hasInfoPlist = true ∨ b.hasInfoPlistLower = true)
    (hres : b.hasResources = true) (hopen : b.dbOpens = true)
    (hq : b.database.execNames Docset.catalogQueryStr = QSqlQuery.active names) :
    ((Docset.construct qt b path).type = DocsetType.Dash ↔ "searchIndex" ∈ names) ∧
    ((Docset.construct qt b path).type = DocsetType.ZDash ↔ "searchIndex" ∉ names) := by
  have hdet : ∀ l : List String,
      (Docset.detectType l = DocsetType.Dash ↔ "searchIndex" ∈ l) ∧
      (Docset.detectType l = DocsetType.ZDash ↔ "searchIndex" ∉ l) := by
    intro l
    induction l with
    | nil => simp [Docset.detectType]
    | cons n ns ih =>
      by_cases hn : n = "searchIndex"
      · simp [Docset.detectType, hn]
      · have hn2 : ¬ "searchIndex" = n := fun h => hn h.symm
        simpa [Docset.detectType, hn, hn2] using ih
  have htype : (Docset.construct qt b path).type = Docset.detectType names := by
    have hp : (b.hasInfoPlist || b.hasInfoPlistLower) = true := by
      rcases hplist with h | h <;> simp [h]
    simp only [Docset.construct, Docset.type, hdir, hcontents, hp, hres, hopen, Docset.exec,
      Docset.catalogQueryStr_ne_empty, hq, Bool.not_true, Bool.false_eq_true, if_false]
    by_cases hdoc : b.hasDocuments = true
    · simp only [hdoc, Bool.not_true, Bool.false_eq_true, if_false]
      rw [(Docset.countSymbols_frame qt _).2.1, (Docset.findIcon_frame qt b _).2.1]
    · simp [hdoc]
  rw [htype]
  exact hdet names

theorem construct_type_detection_witness :
    (Docset.construct asciiQt
      (exampleBundle {} (catalogDatabase ["ztoken", "searchIndex", "ztokentype"]))
      "/docs/Qt5.docset").type = DocsetType.Dash ∧
    (Docset.construct asciiQt
      (exampleBundle {} (catalogDatabase ["ztoken", "ztokentype"]))
      "/docs/Qt5.docset").type = DocsetType.ZDash ∧
    (Docset.construct asciiQt (exampleBundle {} (catalogDatabase []))
      "/docs/Qt5.docset").type = DocsetType.ZDash :=
  ⟨(construct_type_detection asciiQt
      (exampleBundle {} (catalogDatabase ["ztoken", "searchIndex", "ztokentype"]))
      "/docs/Qt5.docset" ["ztoken", "searchIndex", "ztokentype"] rfl rfl (Or.inl rfl) rfl rfl
      rfl).1.mpr (by decide),
   (construct_type_detection asciiQt
      (exampleBundle {} (catalogDatabase ["ztoken", "ztokentype"]))
      "/docs/Qt5.docset" ["ztoken", "ztokentype"] rfl rfl (Or.inl rfl) rfl rfl
      rfl).2.mpr (by decide),
   (construct_type_detection asciiQt (exampleBundle {} (catalogDatabase []))
      "/docs/Qt5.docset" [] rfl rfl (Or.inl rfl) rfl rfl rfl).2.mpr (by decide)⟩

/-- C9 (counterexample). A bundle whose property list gives the bundle name `Qt` and the bundle
identifier `org.qt-project.qt5` gets the `prefix` `Qt`, not the identifier; and a bundle with
the bundle name `Qt` and no identifier gets `Qt` as well, not its display name `Qt5`. -/
theorem construct_prefix_counterexample :
    (Docset.construct asciiQt
      (exampleBundle { bundleName := "Qt", bundleIdentifier := "org.qt-project.qt5" }
        (exampleDatabase [] [])) "/docs/Qt5.docset").isValid = true ∧
    (Docset.construct asciiQt
      (exampleBundle { bundleName := "Qt", bundleIdentifier := "org.qt-project.qt5" }
        (exampleDatabase [] [])) "/docs/Qt5.docset").info.bundleIdentifier
      = "org.qt-project.qt5" ∧
    (Docset.construct asciiQt
      (exampleBundle { bundleName := "Qt", bundleIdentifier := "org.qt-project.qt5" }
        (exampleDatabase [] [])) "/docs/Qt5.docset").prefixStr = "Qt" ∧
    (Docset.construct asciiQt
      (exampleBundle { bundleName := "Qt", bundleIdentifier := "" }
        (exampleDatabase [] [])) "/docs/Qt5.docset").name = "Qt5" ∧
    (Docset.construct asciiQt
      (exampleBundle { bundleName := "Qt", bundleIdentifier := "" }
        (exampleDatabase [] [])) "/docs/Qt5.docset").prefixStr = "Qt" := by
  decide

/-- C9 (amended). After a construction that reaches the prefix step, `prefix` is the bundle name
of the parsed property list (`info.bundleName`) when that name is non-empty, and the display
name `name()` when it is empty; the bundle identifier plays no part. -/
theorem construct_prefix_is_bundle_name (qt : QtLib) (b : Bundle) (path : String)
    (names : List String) (hdir : b.dirExists = true) (hcontents : b.hasContents = true)
    (hplist : b.hasInfoPlist = true ∨ b.hasInfoPlistLower = true)
    (hres : b.hasResources = true) (hopen : b.dbOpens = true)
    (hq : b.database.execNames Docset.catalogQueryStr = QSqlQuery.active names)
    (hdoc : b.hasDocuments = true) :
    (Docset.construct qt b path).info =
      (if b.hasInfoPlist = true then b.fromPlist "Info.plist" else b.fromPlist "info.plist") ∧
    ((Docset.construct qt b path).info.bundleName ≠ "" →
      (Docset.construct qt b path).prefixStr = (Docset.construct qt b path).info.bundleName) ∧
    ((Docset.construct qt b path).info.bundleName = "" →
      (Docset.construct qt b path).prefixStr = (Docset.construct qt b path).name) := by
  have hp : (b.hasInfoPlist || b.hasInfoPlistLower) = true := by
    rcases hplist with h | h <;> simp [h]
  simp only [Docset.construct, Docset.name, hdir, hcontents, hp, hres, hopen, Docset.exec,
    Docset.catalogQueryStr_ne_empty, hq, hdoc, Bool.not_true, Bool.false_eq_true, if_false]
  simp only [(Docset.countSymbols_frame qt _).1, (Docset.countSymbols_frame qt _).2.2.1,
    (Docset.countSymbols_frame qt _).2.2.2.1, (Docset.findIcon_frame qt b _).1,
    (Docset.findIcon_frame qt b _).2.2.1, (Docset.findIcon_frame qt b _).2.2.2]
  refine ⟨?_, ?_, ?_⟩
  · split_ifs <;> rfl
  · intro h
    rw [if_neg h]
  · intro h
    rw [if_pos h]

theorem construct_prefix_is_bundle_name_witness :
    (Docset.construct asciiQt
      (exampleBundle { bundleName := "Qt", bundleIdentifier := "org.qt-project.qt5" }
        (exampleDatabase [] [])) "/docs/Qt5.docset").prefixStr = "Qt" ∧
    (Docset.construct asciiQt
      (exampleBundle { bundleName := "", bundleIdentifier := "org.qt-project.qt5" }
        (exampleDatabase [] [])) "/docs/Qt5.docset").prefixStr = "Qt5" :=
  ⟨((construct_prefix_is_bundle_name asciiQt
      (exampleBundle { bundleName := "Qt", bundleIdentifier := "org.qt-project.qt5" }
        (exampleDatabase [] [])) "/docs/Qt5.docset" ["searchIndex"] rfl rfl (Or.inl rfl) rfl
      rfl rfl rfl).2.1 (by decide)).trans (by decide),
   ((construct_prefix_is_bundle_name asciiQt
      (exampleBundle { bundleName := "", bundleIdentifier := "org.qt-project.qt5" }
        (exampleDatabase [] [])) "/docs/Qt5.docset" ["searchIndex"] rfl rfl (Or.inl rfl) rfl
      rfl rfl rfl).2.2 (by decide)).trans (by decide)⟩

theorem Docset.construct_of_no_dir (qt : QtLib) (b : Bundle) (path : String)
    (hdir : b.dirExists = false) :
    Docset.construct qt b path = { m_path := path, trace := [Op.dirExists] } := by
  simp [Docset.construct, hdir]

theorem Docset.construct_of_no_contents (qt : QtLib) (b : Bundle) (path : String)
    (hdir : b.dirExists = true) (hcontents : b.hasContents = false) :
    Docset.construct qt b path =
      { m_path := path
        m_name := QString.replace b.dirName ".docset" ""
        trace := [Op.dirExists, Op.cd "Contents"] } := by
  simp [Docset.construct, hdir, hcontents]

theorem Docset.construct_of_no_plist (qt : QtLib) (b : Bundle) (path : String)
    (hdir : b.dirExists = true) (hcontents : b.hasContents = true)
    (hupper : b.hasInfoPlist = false) (hlower : b.hasInfoPlistLower = false) :
    Docset.construct qt b path =
      { m_path := path
        m_name := QString.replace b.dirName ".docset" ""
        trace := [Op.dirExists, Op.cd "Contents", Op.fileExists "Info.plist",
          Op.fileExists "info.plist"] } := by
  simp [Docset.construct, hdir, hcontents, hupper, hlower]

theorem Docset.construct_of_no_resources (qt : QtLib) (b : Bundle) (path : String)
    (hdir : b.dirExists = true) (hcontents : b.hasContents = true)
    (hplist : b.hasInfoPlist = true ∨ b.hasInfoPlistLower = true)
    (hres : b.hasResources = false) :
    (Docset.construct qt b path).m_isValid = false ∧
    (Docset.construct qt b path).trace =
      [Op.dirExists, Op.cd "Contents", Op.fileExists "Info.plist"]
        ++ (if b.hasInfoPlist = true then [] else [Op.fileExists "info.plist"])
        ++ [Op.cd "Resources"] ∧
    (Docset.construct qt b path).db = DbHandle.invalid ∧
    (Docset.construct qt b path).m_type = DocsetType.Invalid ∧
    (Docset.construct qt b path).prefixStr = "" ∧
    (Docset.construct qt b path).m_icon = "" ∧
    (Docset.construct qt b path).m_symbolCounts = [] ∧
    (Docset.construct qt b path).m_symbolStrings = [] := by
  have hp : (b.hasInfoPlist || b.hasInfoPlistLower) = true := by
    rcases hplist with h | h <;> simp [h]
  simp only [Docset.construct, hdir, hcontents, hp, hres, Bool.not_true, Bool.not_false,
    Bool.false_eq_true, if_false, if_true]
  by_cases hu : b.hasInfoPlist = true <;>
    by_cases hf : (b.fromPlist "Info.plist").family = "cheatsheet" <;>
    by_cases hf2 : (b.fromPlist "info.plist").family = "cheatsheet" <;> simp [hu, hf, hf2]

theorem Docset.construct_of_no_open (qt : QtLib) (b : Bundle) (path : String)
    (hdir : b.dirExists = true) (hcontents : b.hasContents = true)
    (hplist : b.hasInfoPlist = true ∨ b.hasInfoPlistLower = true)
    (hres : b.hasResources = true) (hopen : b.dbOpens = false) :
    (Docset.construct qt b path).m_isValid = false ∧
    (Docset.construct qt b path).trace =
      [Op.dirExists, Op.cd "Contents", Op.fileExists "Info.plist"]
        ++ (if b.hasInfoPlist = true then [] else [Op.fileExists "info.plist"])
        ++ [Op.cd "Resources", Op.dbOpen] ∧
    (Docset.construct qt b path).db = DbHandle.closed ∧
    (Docset.construct qt b path).m_type = DocsetType.Invalid ∧
    (Docset.construct qt b path).prefixStr = "" ∧
    (Docset.construct qt b path).m_icon = "" ∧
    (Docset.construct qt b path).m_symbolCounts = [] ∧
    (Docset.construct qt b path).m_symbolStrings = [] := by
  have hp : (b.hasInfoPlist || b.hasInfoPlistLower) = true := by
    rcases hplist with h | h <;> simp [h]
  simp only [Docset.construct, hdir, hcontents, hp, hres, hopen, Bool.not_true, Bool.not_false,
    Bool.false_eq_true, if_false, if_true]
  by_cases hu : b.hasInfoPlist = true <;>
    by_cases hf : (b.fromPlist "Info.plist").family = "cheatsheet" <;>
    by_cases hf2 : (b.fromPlist "info.plist").family = "cheatsheet" <;> simp [hu, hf, hf2]

theorem Docset.construct_of_failed_catalog (qt : QtLib) (b : Bundle) (path : String)
    (text : String)
    (hdir : b.dirExists = true) (hcontents : b.hasContents = true)
    (hplist : b.hasInfoPlist = true ∨ b.hasInfoPlistLower = true)
    (hres : b.hasResources = true) (hopen : b.dbOpens = true)
    (hq : b.database.execNames Docset.catalogQueryStr = QSqlQuery.failed text) :
    (Docset.construct qt b path).m_isValid = false ∧
    (Docset.construct qt b path).trace =
      [Op.dirExists, Op.cd "Contents", Op.fileExists "Info.plist"]
        ++ (if b.hasInfoPlist = true then [] else [Op.fileExists "info.plist"])
        ++ [Op.cd "Resources", Op.dbOpen, Op.exec Docset.catalogQueryStr] ∧
    (Docset.construct qt b path).m_type = DocsetType.Invalid ∧
    (Docset.construct qt b path).prefixStr = "" ∧
    (Docset.construct qt b path).m_icon = "" ∧
    (Docset.construct qt b path).m_symbolCounts = [] ∧
    (Docset.construct qt b path).m_symbolStrings = [] := by
  have hp : (b.hasInfoPlist || b.hasInfoPlistLower) = true := by
    rcases hplist with h | h <;> simp [h]
  simp only [Docset.construct, hdir, hcontents, hp, hres, hopen, Docset.exec,
    Docset.catalogQueryStr_ne_empty, hq, Bool.not_true, Bool.not_false,
    Bool.false_eq_true, if_false, if_true]
  by_cases hu : b.hasInfoPlist = true <;>
    by_cases hf : (b.fromPlist "Info.plist").family = "cheatsheet" <;>
    by_cases hf2 : (b.fromPlist "info.plist").family = "cheatsheet" <;> simp [hu, hf, hf2]

theorem Docset.construct_of_no_documents (qt : QtLib) (b : Bundle) (path : String)
    (names : List String)
    (hdir : b.dirExists = true) (hcontents : b.hasContents = true)
    (hplist : b.hasInfoPlist = true ∨ b.hasInfoPlistLower = true)
    (hres : b.hasResources = true) (hopen : b.dbOpens = true)
    (hq : b.database.execNames Docset.catalogQueryStr = QSqlQuery.active names)
    (hdoc : b.hasDocuments = false) :
    (Docset.construct qt b path).m_isValid = false ∧
    (Docset.construct qt b path).trace =
      [Op.dirExists, Op.cd "Contents", Op.fileExists "Info.plist"]
        ++ (if b.hasInfoPlist = true then [] else [Op.fileExists "info.plist"])
        ++ [Op.cd "Resources", Op.dbOpen, Op.exec Docset.catalogQueryStr, Op.cd "Documents"] ∧
    (Docset.construct qt b path).prefixStr = "" ∧
    (Docset.construct qt b path).m_icon = "" ∧
    (Docset.construct qt b path).m_symbolCounts = [] ∧
    (Docset.construct qt b path).m_symbolStrings = [] := by
  have hp : (b.hasInfoPlist || b.hasInfoPlistLower) = true := by
    rcases hplist with h | h <;> simp [h]
  simp only [Docset.construct, hdir, hcontents, hp, hres, hopen, Docset.exec,
    Docset.catalogQueryStr_ne_empty, hq, hdoc, Bool.not_true, Bool.not_false,
    Bool.false_eq_true, if_false, if_true]
  by_cases hu : b.hasInfoPlist = true <;>
    by_cases hf : (b.fromPlist "Info.plist").family = "cheatsheet" <;>
    by_cases hf2 : (b.fromPlist "info.plist").family = "cheatsheet" <;> simp [hu, hf, hf2]

theorem Docset.construct_of_all_steps (qt : QtLib) (b : Bundle) (path : String)
    (names : List String)
    (hdir : b.dirExists = true) (hcontents : b.hasContents = true)
    (hplist : b.hasInfoPlist = true ∨ b.hasInfoPlistLower = true)
    (hres : b.hasResources = true) (hopen : b.dbOpens = true)
    (hq : b.database.execNames Docset.catalogQueryStr = QSqlQuery.active names)
    (hdoc : b.hasDocuments = true) :
    (Docset.construct qt b path).m_isValid = true := by
  have hp : (b.hasInfoPlist || b.hasInfoPlistLower) = true := by
    rcases hplist with h | h <;> simp [h]
  simp only [Docset.construct, hdir, hcontents, hp, hres, hopen, Docset.exec,
    Docset.catalogQueryStr_ne_empty, hq, hdoc, Bool.not_true, Bool.not_false,
    Bool.false_eq_true, if_false, if_true]

/-- C4. `isValid()` is true after construction exactly when every fatal step succeeds: the
directory exists, it has `Contents`, `Contents` holds `Info.plist` or `info.plist`, it has
`Resources`, the database opens, the catalog query succeeds, and `Resources` has `Documents`;
neither the count query nor the icon search takes part. The first failing step is the last
operation performed: the trace ends with it, and an invalid docset has no prefix, icon or
counts, no detected type unless the catalog query succeeded, and no open database unless
`db.open()` succeeded. -/
theorem construct_isValid_iff (qt : QtLib) (b : Bundle) (path : String) :
    ((Docset.construct qt b path).isValid = true ↔
      b.dirExists = true ∧ b.hasContents = true ∧
      (b.hasInfoPlist = true ∨ b.hasInfoPlistLower = true) ∧
      b.hasResources = true ∧ b.dbOpens = true ∧
      (∃ names, b.database.execNames Docset.catalogQueryStr = QSqlQuery.active names) ∧
      b.hasDocuments = true) ∧
    (b.dirExists = false → (Docset.construct qt b path).trace = [Op.dirExists]) ∧
    (b.dirExists = true → b.hasContents = false →
      (Docset.construct qt b path).trace = [Op.dirExists, Op.cd "Contents"]) ∧
    (b.dirExists = true → b.hasContents = true →
      b.hasInfoPlist = false → b.hasInfoPlistLower = false →
      (Docset.construct qt b path).trace =
        [Op.dirExists, Op.cd "Contents", Op.fileExists "Info.plist",
          Op.fileExists "info.plist"]) ∧
    (b.dirExists = true → b.hasContents = true →
      (b.hasInfoPlist = true ∨ b.hasInfoPlistLower = true) → b.hasResources = false →
      (Docset.construct qt b path).trace =
        [Op.dirExists, Op.cd "Contents", Op.fileExists "Info.plist"]
          ++ (if b.hasInfoPlist = true then [] else [Op.fileExists "info.plist"])
          ++ [Op.cd "Resources"]) ∧
    (b.dirExists = true → b.hasContents = true →
      (b.hasInfoPlist = true ∨ b.hasInfoPlistLower = true) → b.hasResources = true →
      b.dbOpens = false →
      (Docset.construct qt b path).trace =
        [Op.dirExists, Op.cd "Contents", Op.fileExists "Info.plist"]
          ++ (if b.hasInfoPlist = true then [] else [Op.fileExists "info.plist"])
          ++ [Op.cd "Resources", Op.dbOpen]) ∧
    (∀ text, b.dirExists = true → b.hasContents = true →
      (b.hasInfoPlist = true ∨ b.hasInfoPlistLower = true) → b.hasResources = true →
      b.dbOpens = true →
      b.database.execNames Docset.catalogQueryStr = QSqlQuery.failed text →
      (Docset.construct qt b path).trace =
        [Op.dirExists, Op.cd "Contents", Op.fileExists "Info.plist"]
          ++ (if b.hasInfoPlist = true then [] else [Op.fileExists "info.plist"])
          ++ [Op.cd "Resources", Op.dbOpen, Op.exec Docset.catalogQueryStr] ∧
      (Docset.construct qt b path).type = DocsetType.Invalid) ∧
    (∀ names, b.dirExists = true → b.hasContents = true →
      (b.hasInfoPlist = true ∨ b.hasInfoPlistLower = true) → b.hasResources = true →
      b.dbOpens = true →
      b.database.execNames Docset.catalogQueryStr = QSqlQuery.active names →
      b.hasDocuments = false →
      (Docset.construct qt b path).trace =
        [Op.dirExists, Op.cd "Contents", Op.fileExists "Info.plist"]
          ++ (if b.hasInfoPlist = true then [] else [Op.fileExists "info.plist"])
          ++ [Op.cd "Resources", Op.dbOpen, Op.exec Docset.catalogQueryStr,
            Op.cd "Documents"]) ∧
    ((Docset.construct qt b path).isValid = false →
      (Docset.construct qt b path).prefixStr = "" ∧
      (Docset.construct qt b path).icon = "" ∧
      (Docset.construct qt b path).symbolCounts = [] ∧
      (Docset.construct qt b path).m_symbolStrings = []) ∧
    (¬ (b.dirExists = true ∧ b.hasContents = true ∧
        (b.hasInfoPlist = true ∨ b.hasInfoPlistLower = true) ∧
        b.hasResources = true ∧ b.dbOpens = true) →
      (Docset.construct qt b path).db.isOpen = false ∧
      (Docset.construct qt b path).type = DocsetType.Invalid) := by
  have hbool : ∀ x : Bool, x = true ∨ x = false := fun x => by cases x <;> simp
  have hplistCases : (b.hasInfoPlist = true ∨ b.hasInfoPlistLower = true) ∨
      (b.hasInfoPlist = false ∧ b.hasInfoPlistLower = false) := by
    cases b.hasInfoPlist <;> cases b.hasInfoPlistLower <;> simp
  have hinvalid : (Docset.construct qt b path).isValid = false →
      (Docset.construct qt b path).prefixStr = "" ∧
      (Docset.construct qt b path).icon = "" ∧
      (Docset.construct qt b path).symbolCounts = [] ∧
      (Docset.construct qt b path).m_symbolStrings = [] := by
    intro hinv
    simp only [Docset.isValid, Docset.icon, Docset.symbolCounts] at hinv ⊢
    rcases hbool b.dirExists with hdir | hdir
    · rcases hbool b.hasContents with hcontents | hcontents
      · rcases hplistCases with hplist | ⟨hu, hl⟩
        · rcases hbool b.hasResources with hres | hres
          · rcases hbool b.dbOpens with hopen | hopen
            · rcases hq : b.database.execNames Docset.catalogQueryStr with text | names
              · exact (Docset.construct_of_failed_catalog qt b path text hdir hcontents hplist
                  hres hopen hq).2.2.2
              · rcases hbool b.hasDocuments with hdoc | hdoc
                · rw [Docset.construct_of_all_steps qt b path names hdir hcontents hplist hres
                    hopen hq hdoc] at hinv
                  exact absurd hinv (by simp)
                · exact (Docset.construct_of_no_documents qt b path names hdir hcontents hplist
                    hres hopen hq hdoc).2.2
            · exact (Docset.construct_of_no_open qt b path hdir hcontents hplist hres
                hopen).2.2.2.2
          · exact (Docset.construct_of_no_resources qt b path hdir hcontents hplist hres).2.2.2.2
        · rw [Docset.construct_of_no_plist qt b path hdir hcontents hu hl]
          simp [DbHandle.isOpen]
      · rw [Docset.construct_of_no_contents qt b path hdir hcontents]
        simp [DbHandle.isOpen]
    · rw [Docset.construct_of_no_dir qt b path hdir]
      simp [DbHandle.isOpen]
  refine ⟨⟨?_, ?_⟩, ?_, ?_, ?_, ?_, ?_, ?_, ?_, hinvalid, ?_⟩
  · intro hvalid
    simp only [Docset.isValid] at hvalid
    rcases hbool b.dirExists with hdir | hdir
    · rcases hbool b.hasContents with hcontents | hcontents
      · rcases hplistCases with hplist | ⟨hu, hl⟩
        · rcases hbool b.hasResources with hres | hres
          · rcases hbool b.dbOpens with hopen | hopen
            · rcases hq : b.database.execNames Docset.catalogQueryStr with text | names
              · rw [(Docset.construct_of_failed_catalog qt b path text hdir hcontents hplist
                  hres hopen hq).1] at hvalid
                exact absurd hvalid (by simp)
              · rcases hbool b.hasDocuments with hdoc | hdoc
                · exact ⟨hdir, hcontents, hplist, hres, hopen, ⟨names, rfl⟩, hdoc⟩
                · rw [(Docset.construct_of_no_documents qt b path names hdir hcontents hplist
                    hres hopen hq hdoc).1] at hvalid
                  exact absurd hvalid (by simp)
            · rw [(Docset.construct_of_no_open qt b path hdir hcontents hplist hres
                hopen).1] at hvalid
              exact absurd hvalid (by simp)
          · rw [(Docset.construct_of_no_resources qt b path hdir hcontents hplist hres).1]
              at hvalid
            exact absurd hvalid (by simp)
        · rw [Docset.construct_of_no_plist qt b path hdir hcontents hu hl] at hvalid
          exact absurd hvalid (by simp)
      · rw [Docset.construct_of_no_contents qt b path hdir hcontents] at hvalid
        exact absurd hvalid (by simp)
    · rw [Docset.construct_of_no_dir qt b path hdir] at hvalid
      exact absurd hvalid (by simp)
  · rintro ⟨hdir, hcontents, hplist, hres, hopen, ⟨names, hq⟩, hdoc⟩
    exact Docset.construct_of_all_steps qt b path names hdir hcontents hplist hres hopen hq hdoc
  · intro hdir
    rw [Docset.construct_of_no_dir qt b path hdir]
  · intro hdir hcontents
    rw [Docset.construct_of_no_contents qt b path hdir hcontents]
  · intro hdir hcontents hu hl
    rw [Docset.construct_of_no_plist qt b path hdir hcontents hu hl]
  · intro hdir hcontents hplist hres
    exact (Docset.construct_of_no_resources qt b path hdir hcontents hplist hres).2.1
  · intro hdir hcontents hplist hres hopen
    exact (Docset.construct_of_no_open qt b path hdir hcontents hplist hres hopen).2.1
  · intro text hdir hcontents hplist hres hopen hq
    have h := Docset.construct_of_failed_catalog qt b path text hdir hcontents hplist hres
      hopen hq
    exact ⟨h.2.1, h.2.2.1⟩
  · intro names hdir hcontents hplist hres hopen hq hdoc
    exact (Docset.construct_of_no_documents qt b path names hdir hcontents hplist hres hopen
      hq hdoc).2.1
  · intro hnot
    simp only [Docset.type]
    rcases hbool b.dirExists with hdir | hdir
    · rcases hbool b.hasContents with hcontents | hcontents
      · rcases hplistCases with hplist | ⟨hu, hl⟩
        · rcases hbool b.hasResources with hres | hres
          · rcases hbool b.dbOpens with hopen | hopen
            · exact absurd ⟨hdir, hcontents, hplist, hres, hopen⟩ hnot
            · have h := Docset.construct_of_no_open qt b path hdir hcontents hplist hres hopen
              exact ⟨by rw [h.2.2.1]; rfl, h.2.2.2.1⟩
          · have h := Docset.construct_of_no_resources qt b path hdir hcontents hplist hres
            exact ⟨by rw [h.2.2.1]; rfl, h.2.2.2.1⟩
        · rw [Docset.construct_of_no_plist qt b path hdir hcontents hu hl]
          simp [DbHandle.isOpen]
      · rw [Docset.construct_of_no_contents qt b path hdir hcontents]
        simp [DbHandle.isOpen]
    · rw [Docset.construct_of_no_dir qt b path hdir]
      simp [DbHandle.isOpen]

theorem construct_isValid_iff_witness :
    (Docset.construct asciiQt (exampleBundle {} failingDatabase) "/docs/Qt5.docset").isValid
      = true ∧
    (Docset.construct asciiQt (exampleBundle {} failingDatabase) "/docs/Qt5.docset").symbolCounts
      = [] ∧
    (Docset.construct asciiQt bundleWithoutContents "/docs/Qt5.docset").isValid = false ∧
    (Docset.construct asciiQt bundleWithoutContents "/docs/Qt5.docset").trace =
      [Op.dirExists, Op.cd "Contents"] :=
  ⟨(construct_isValid_iff asciiQt (exampleBundle {} failingDatabase) "/docs/Qt5.docset").1.mpr
      ⟨rfl, rfl, Or.inl rfl, rfl, rfl, ⟨["searchIndex"], rfl⟩, rfl⟩,
   by decide,
   by decide,
   (construct_isValid_iff asciiQt bundleWithoutContents "/docs/Qt5.docset").2.2.1 rfl rfl⟩

/-- C5 (counterexample). For the existing directory `Qt5.docset` without a `Contents`
subdirectory the constructed docset is invalid, yet `name()` is `Qt5`, not the empty string. -/
theorem construct_without_contents_counterexample :
    bundleWithoutContents.dirExists = true ∧
    bundleWithoutContents.hasContents = false ∧
    (Docset.construct asciiQt bundleWithoutContents "/docs/Qt5.docset").isValid = false ∧
    (Docset.construct asciiQt bundleWithoutContents "/docs/Qt5.docset").name = "Qt5" ∧
    (Docset.construct asciiQt bundleWithoutContents "/docs/Qt5.docset").name ≠ "" := by
  decide

/-- C5 (amended). For a docset constructed from an existing directory without a `Contents`
subdirectory, `isValid()` is false, `name()` is the directory name with every `.docset` removed,
`symbolCounts()` is empty, `symbolCount` is 0 for every kind and for every raw type string, and
`symbols(k)` is empty for every kind. -/
theorem construct_without_contents (qt : QtLib) (b : Bundle) (path : String)
    (hdir : b.dirExists = true) (hcontents : b.hasContents = false) :
    (Docset.construct qt b path).isValid = false ∧
    (Docset.construct qt b path).name = QString.replace b.dirName ".docset" "" ∧
    (Docset.construct qt b path).symbolCounts = [] ∧
    (∀ k, (Docset.construct qt b path).symbolCount k = 0) ∧
    (∀ typeStr, (Docset.construct qt b path).symbolCountStr qt typeStr = 0) ∧
    (∀ k, ((Docset.construct qt b path).symbols qt k).1 = []) := by
  rw [Docset.construct_of_no_contents qt b path hdir hcontents]
  refine ⟨rfl, rfl, rfl, fun k => rfl, fun typeStr => rfl, fun k => ?_⟩
  exact (Docset.symbols_of_failed qt
    { m_path := path
      m_name := QString.replace b.dirName ".docset" ""
      trace := [Op.dirExists, Op.cd "Contents"] } k "Driver not loaded" rfl rfl).1

theorem construct_without_contents_witness :
    (Docset.construct asciiQt bundleWithoutContents "/docs/Qt5.docset").isValid = false ∧
    (Docset.construct asciiQt bundleWithoutContents "/docs/Qt5.docset").name = "Qt5" ∧
    (Docset.construct asciiQt bundleWithoutContents "/docs/Qt5.docset").symbolCount
      SymbolType.Class = 0 ∧
    (Docset.construct asciiQt bundleWithoutContents "/docs/Qt5.docset").symbolCountStr asciiQt
      "function" = 0 ∧
    ((Docset.construct asciiQt bundleWithoutContents "/docs/Qt5.docset").symbols asciiQt
      SymbolType.Function).1 = [] :=
  ⟨(construct_without_contents asciiQt bundleWithoutContents "/docs/Qt5.docset" rfl rfl).1,
   ((construct_without_contents asciiQt bundleWithoutContents "/docs/Qt5.docset"
      rfl rfl).2.1).trans (by decide),
   (construct_without_contents asciiQt bundleWithoutContents "/docs/Qt5.docset"
      rfl rfl).2.2.2.1 SymbolType.Class,
   (construct_without_contents asciiQt bundleWithoutContents "/docs/Qt5.docset"
      rfl rfl).2.2.2.2.1 "function",
   (construct_without_contents asciiQt bundleWithoutContents "/docs/Qt5.docset"
      rfl rfl).2.2.2.2.2 SymbolType.Function⟩
